import Mathlib

/-
Verification of the OtomoPy Live Event Tracking & Realtime Feed Engine
(src/otomopy/holodex.py and src/otomopy/channel_cache.py) against its
natural-language specification.

Modelling conventions:
- Python dicts with string keys are insertion-ordered association lists;
  assignment keeps the first-insertion position and overwrites the value
  (the CPython behaviour of `d[k] = v`).
- Python sets of video ids are modelled as duplicate-free lists; `set.add`
  appends when absent, `set.remove` filters.
- The asynchronous I/O layer is idealised: a websocket send either happens
  (connection flag true) or is skipped (flag false), mirroring the explicit
  `ws_connected` checks in the source; callbacks and outbound frames are
  recorded in a trace instead of performing I/O.
- Timestamps are integer seconds; `timedelta(hours=24)` is 86400 seconds.
- Floating point only occurs in the rate-limit delay (0.5, 1.5, 5.0) where
  every value reached is a small dyadic/ternary rational represented exactly
  by a binary double, so the evolution is modelled exactly over ℚ.
-/

namespace OtomoPy

/-! ## Python dict model (insertion-ordered association list) -/

/-- Lookup in a Python dict modelled as an association list: first entry
whose key matches. -/
def lookupA {α : Type} (m : List (String × α)) (k : String) : Option α :=
  (m.find? (fun p => p.1 == k)).map (fun p => p.2)

/-- Python `d[k] = v`: overwrite in place if the key is present (keeping its
position), otherwise append. -/
def upsert {α : Type} (m : List (String × α)) (k : String) (v : α) :
    List (String × α) :=
  if (m.find? (fun p => p.1 == k)).isSome then
    m.map (fun p => if p.1 == k then (k, v) else p)
  else m ++ [(k, v)]

/-- Build a dict keyed by `key` from a list of values, later values
overwriting earlier ones (a Python dict-building loop). -/
def buildDict {α : Type} (value : List α) (key : α → String) :
    List (String × α) :=
  value.foldl (fun m c => upsert m (key c) c) []

/-! ## StreamEvent (holodex.py, `StreamEvent` dataclass) -/

/-- Mirror of the `StreamEvent` dataclass.  `start_time` is the parsed
timestamp of the ISO string (`None`/unparseable modelled as `none`, which the
24-hour check treats as "not more than 24h away", as the source does). -/
structure StreamEvent where
  video_id : String
  channel_id : String
  title : String
  channel_name : String
  thumbnail : String
  status : String
  start_time : Option Int
  live_viewers : Option Int
  members_only : Bool
deriving DecidableEq, Repr

/-- The last-known stream snapshot: `video_id -> StreamEvent`, a Python dict. -/
abbrev Snapshot := List (String × StreamEvent)

/-- Mirror of `HolodexManager._is_stream_more_than_24h_away`: true when the
scheduled start is strictly later than now + 24 hours; false when there is
no (parseable) start time. -/
def isStreamMoreThan24hAway (now : Int) (e : StreamEvent) : Bool :=
  match e.start_time with
  | none => false
  | some t => decide (now + 86400 < t)

/-- Eligibility for a chat subscription, as used throughout the source:
status `live` or `upcoming` and not members-only. -/
def eligible (e : StreamEvent) : Bool :=
  (e.status == "live" || e.status == "upcoming") && !e.members_only

/-! ## Engine state and action trace -/

/-- The mutable state of `HolodexManager` relevant to the claims. -/
structure EngineState where
  current_streams : Option Snapshot
  active_subscriptions : List String
  ws_connected : Bool
  running : Bool
deriving DecidableEq, Repr

/-- Observable effects of one engine operation: `onStreamEvent` callback
invocations and outbound subscribe/unsubscribe frames. -/
inductive Action where
  | emit (e : StreamEvent)
  | subFrame (video_id : String)
  | unsubFrame (video_id : String)
deriving DecidableEq, Repr

/-- Stream events passed to the `stream_callback`. -/
def emittedOf (tr : List Action) : List StreamEvent :=
  tr.filterMap (fun a =>
    match a with
    | Action.emit e => some e
    | Action.subFrame _ => none
    | Action.unsubFrame _ => none)

/-- Video ids of the subscribe frames sent on the socket. -/
def subFramesOf (tr : List Action) : List String :=
  tr.filterMap (fun a =>
    match a with
    | Action.emit _ => none
    | Action.subFrame v => some v
    | Action.unsubFrame _ => none)

/-- Video ids of the unsubscribe frames sent on the socket. -/
def unsubFramesOf (tr : List Action) : List String :=
  tr.filterMap (fun a =>
    match a with
    | Action.emit _ => none
    | Action.subFrame _ => none
    | Action.unsubFrame v => some v)

/-- Mirror of `HolodexManager._subscribe_to_chat`: a no-op when the websocket
is not connected; otherwise adds the id to `active_subscriptions` and sends
one subscribe frame (the send is idealised as succeeding). -/
def subscribeToChat (st : EngineState) (v : String) : EngineState × List Action :=
  if st.ws_connected then
    ({ st with active_subscriptions :=
        if v ∈ st.active_subscriptions then st.active_subscriptions
        else st.active_subscriptions ++ [v] },
     [Action.subFrame v])
  else (st, [])

/-- Mirror of `HolodexManager._unsubscribe_from_chat`: a no-op when the
websocket is not connected (in particular the id is then NOT removed from the
set); otherwise sends one unsubscribe frame and removes the id. -/
def unsubscribeFromChat (st : EngineState) (v : String) :
    EngineState × List Action :=
  if st.ws_connected then
    ({ st with active_subscriptions :=
        st.active_subscriptions.filter (fun w => w ≠ v) },
     [Action.unsubFrame v])
  else (st, [])

/-! ## The poll-cycle diff (`HolodexManager._update_streams`) -/

/-- The diff condition of `_update_streams`: a transition is detected when no
previous snapshot exists, the id is new, or the status changed. -/
def statusTransition (prev : Option Snapshot) (v : String) (e : StreamEvent) :
    Bool :=
  match prev with
  | none => true
  | some p =>
    match lookupA p v with
    | none => true
    | some old => old.status != e.status

/-- The emission gate of `_update_streams`: the callback fires only when a
previous snapshot existed and the event is not an upcoming stream more than
24 hours away. -/
def emitDecision (prev : Option Snapshot) (now : Int) (e : StreamEvent) : Bool :=
  prev.isSome && (e.status != "upcoming" || !(isStreamMoreThan24hAway now e))

/-- Body of the per-stream loop of `_update_streams` for one snapshot entry. -/
def processStreamItem (prev : Option Snapshot) (now : Int) (st : EngineState)
    (v : String) (e : StreamEvent) : EngineState × List Action :=
  if statusTransition prev v e then
    let t1 : List Action :=
      if emitDecision prev now e then [Action.emit e] else []
    let p2 : EngineState × List Action :=
      if eligible e && !(decide (v ∈ st.active_subscriptions)) then
        if st.ws_connected then subscribeToChat st v else (st, [])
      else (st, [])
    let p3 : EngineState × List Action :=
      if e.members_only && decide (v ∈ p2.1.active_subscriptions) then
        unsubscribeFromChat p2.1 v
      else (p2.1, [])
    (p3.1, t1 ++ p2.2 ++ p3.2)
  else (st, [])

/-- The per-stream loop of `_update_streams` over the new snapshot's items. -/
def processItems (prev : Option Snapshot) (now : Int) (st : EngineState)
    (items : List (String × StreamEvent)) : EngineState × List Action :=
  match items with
  | [] => (st, [])
  | (v, e) :: rest =>
    let p := processStreamItem prev now st v e
    let q := processItems prev now p.1 rest
    (q.1, p.2 ++ q.2)

/-- The ended-stream loop of `_update_streams`: for every previous key absent
from the new snapshot, unsubscribe if currently subscribed. -/
def processEnded (newSnap : Snapshot) (st : EngineState)
    (oldKeys : List String) : EngineState × List Action :=
  match oldKeys with
  | [] => (st, [])
  | v :: rest =>
    let p : EngineState × List Action :=
      if (lookupA newSnap v).isNone && decide (v ∈ st.active_subscriptions) then
        unsubscribeFromChat st v
      else (st, [])
    let q := processEnded newSnap p.1 rest
    (q.1, p.2 ++ q.2)

/-- Mirror of `HolodexManager._update_streams` applied to the (already
fetched) live data: skips everything when no channels are tracked or the
fetch yielded no update, otherwise builds the new snapshot dict, runs the
diff loop, the ended-stream loop, and stores the new snapshot. -/
def updateStreams (tracked : List String) (now : Int) (st : EngineState)
    (live_data : Option (List StreamEvent)) : EngineState × List Action :=
  if tracked.isEmpty then (st, [])
  else
    match live_data with
    | none => (st, [])
    | some data =>
      let snap := buildDict data (fun e => e.video_id)
      let p := processItems st.current_streams now st snap
      let q :=
        match st.current_streams with
        | none => (p.1, ([] : List Action))
        | some old => processEnded snap p.1 (old.map Prod.fst)
      ({ q.1 with current_streams := some snap }, p.2 ++ q.2)

/-! ## Live status fetch (`HolodexAPI.get_live_streams`) -/

/-- Outcome of the single bulk HTTP request: a status code with a decoded
body, or a transport failure / raised exception. -/
inductive ApiResponse where
  | ok (status : Nat) (body : List StreamEvent)
  | failure
deriving DecidableEq, Repr

/-- Mirror of `HolodexAPI.get_live_streams`.  Returns the parsed result and
whether a network request was made.  Note the source's `return data if data
else None`: a 200 response with an empty body is collapsed to `none`. -/
def getLiveStreams (channel_ids : List String) (resp : ApiResponse) :
    Option (List StreamEvent) × Bool :=
  if channel_ids.isEmpty then (none, false)
  else
    match resp with
    | ApiResponse.failure => (none, true)
    | ApiResponse.ok s body =>
      if s = 200 then (if body.isEmpty then none else some body, true)
      else (none, true)

/-- One poll cycle: fetch live data for the tracked channels and run the
diff (`_stream_update_loop` body without the sleep). -/
def pollCycle (tracked : List String) (now : Int) (st : EngineState)
    (resp : ApiResponse) : EngineState × List Action :=
  updateStreams tracked now st (getLiveStreams tracked resp).1

/-! ## Reconnection (`HolodexManager._resubscribe_to_streams`) -/

/-- First loop of `_resubscribe_to_streams`: re-subscribe every id in a copy
of the current subscription set. -/
def resubscribeLoop1 (st : EngineState) (vids : List String) :
    EngineState × List Action :=
  match vids with
  | [] => (st, [])
  | v :: rest =>
    let p := subscribeToChat st v
    let q := resubscribeLoop1 p.1 rest
    (q.1, p.2 ++ q.2)

/-- Second loop of `_resubscribe_to_streams`: subscribe to any eligible
stream of the current snapshot that is not yet subscribed. -/
def resubscribeLoop2 (st : EngineState)
    (items : List (String × StreamEvent)) : EngineState × List Action :=
  match items with
  | [] => (st, [])
  | (v, e) :: rest =>
    let p : EngineState × List Action :=
      if eligible e && !(decide (v ∈ st.active_subscriptions)) then
        subscribeToChat st v
      else (st, [])
    let q := resubscribeLoop2 p.1 rest
    (q.1, p.2 ++ q.2)

/-- Mirror of `HolodexManager._resubscribe_to_streams`, run right after a
successful handshake (so with `ws_connected` true in the source). -/
def resubscribeToStreams (st : EngineState) : EngineState × List Action :=
  let p := resubscribeLoop1 st st.active_subscriptions
  match p.1.current_streams with
  | none => p
  | some cur =>
    let q := resubscribeLoop2 p.1 cur
    (q.1, p.2 ++ q.2)

/-! ## Removed-channel cleanup (`HolodexManager._cleanup_removed_channels`) -/

/-- Python `del current_streams[k]`. -/
def snapErase (m : Snapshot) (k : String) : Snapshot :=
  m.filter (fun p => p.1 ≠ k)

/-- The removal loop of `_cleanup_removed_channels`: delete each collected
stream from the snapshot, and unsubscribe it if subscribed and running (the
scheduled unsubscribe task is idealised as running immediately). -/
def cleanupLoop (st : EngineState) (toRemove : List String) :
    EngineState × List Action :=
  match toRemove with
  | [] => (st, [])
  | v :: rest =>
    let st1 : EngineState :=
      { st with current_streams := st.current_streams.map (fun m => snapErase m v) }
    let p : EngineState × List Action :=
      if decide (v ∈ st1.active_subscriptions) && st1.running then
        unsubscribeFromChat st1 v
      else (st1, [])
    let q := cleanupLoop p.1 rest
    (q.1, p.2 ++ q.2)

/-- Mirror of `HolodexManager._cleanup_removed_channels`. -/
def cleanupRemovedChannels (removed : List String) (st : EngineState) :
    EngineState × List Action :=
  match st.current_streams with
  | none => (st, [])
  | some cur =>
    cleanupLoop st
      ((cur.filter (fun p => removed.contains p.2.channel_id)).map (fun p => p.1))

/-! ## The subscription-set invariant (spec §3, "Subscription set") -/

/-- Lookup in an optional snapshot (no snapshot: nothing is found). -/
def snapLookup (cur : Option Snapshot) (v : String) : Option StreamEvent :=
  match cur with
  | none => none
  | some m => lookupA m v

/-- The spec's invariant: a video id is subscribed iff its entry in the
last-known snapshot has status live/upcoming and is not members-only. -/
def subsInvariant (st : EngineState) : Prop :=
  ∀ v : String, v ∈ st.active_subscriptions ↔
    ∃ e, snapLookup st.current_streams v = some e ∧ eligible e = true

/-- Well-formedness: the stored snapshot has duplicate-free keys (true of
every snapshot the engine builds, since it is a Python dict). -/
def snapKeysNodup (st : EngineState) : Prop :=
  match st.current_streams with
  | none => True
  | some m => (m.map Prod.fst).Nodup

/-! ## Chat messages (`ChatMessage`, `HolodexManager._handle_chat_event`) -/

/-- The fields `_handle_chat_event` reads from a decoded socket payload.
Each field is optional, matching `dict.get` with a default in the source
(`none` = key absent). -/
structure ChatPayload where
  name : Option String
  timestamp : Option Int
  video_offset : Option ℚ
  message : Option String
  is_tl : Option Bool
  is_moderator : Option Bool
  is_vtuber : Option Bool
  is_verified : Option Bool
  source : Option String
  typeField : Option String
deriving DecidableEq, Repr

/-- Mirror of the `ChatMessage` dataclass. -/
structure ChatMessage where
  video_id : String
  channel_id : String
  author : String
  timestamp : Int
  video_offset : ℚ
  message : String
  is_tl : Bool
  is_moderator : Bool
  is_vtuber : Bool
  is_verified : Bool
  source : String
deriving DecidableEq, Repr

/-- Mirror of `ChatMessage.from_socket_message`: copies the payload fields
with the source's `dict.get` defaults. -/
def ChatMessage.fromSocketMessage (video_id : String) (data : ChatPayload)
    (channel_id : String) : ChatMessage :=
  { video_id := video_id
    channel_id := channel_id
    author := data.name.getD "Unknown"
    timestamp := data.timestamp.getD 0
    video_offset := data.video_offset.getD 0
    message := data.message.getD ""
    is_tl := data.is_tl.getD false
    is_moderator := data.is_moderator.getD false
    is_vtuber := data.is_vtuber.getD false
    is_verified := data.is_verified.getD false
    source := data.source.getD "" }

/-- Whitespace characters removed by Python `str.strip()` (the ASCII ones;
the claims only involve these). -/
def pyIsSpace (c : Char) : Bool :=
  c == ' ' || c == '\t' || c == '\n' || c == '\r' ||
    c == Char.ofNat 11 || c == Char.ofNat 12

/-- Python `str.strip()`. -/
def pyStrip (s : String) : String :=
  String.mk (((s.toList.dropWhile pyIsSpace).reverse.dropWhile pyIsSpace).reverse)

/-- Which consumer callback a chat event was routed to. -/
inductive CallbackCall where
  | chatCb (m : ChatMessage)
  | vtuberCb (m : ChatMessage)
deriving DecidableEq, Repr

/-- Mirror of `HolodexManager._handle_chat_event`: drops everything until a
snapshot exists; a payload with a truthy `name` is a chat message (dropped if
its text strips to empty, otherwise routed to the vtuber or general chat
callback); a payload with `type == "end"` removes the local subscription
without sending a frame. -/
def handleChatEvent (st : EngineState) (event_name : String)
    (data : ChatPayload) : EngineState × Option CallbackCall :=
  match st.current_streams with
  | none => (st, none)
  | some cur =>
    let video_id := (event_name.splitOn "/").headD ""
    if data.name.getD "" != "" then
      let channel_id :=
        match lookupA cur video_id with
        | some e => e.channel_id
        | none => ""
      let m := ChatMessage.fromSocketMessage video_id data channel_id
      if pyStrip m.message == "" then (st, none)
      else if m.is_vtuber then (st, some (CallbackCall.vtuberCb m))
      else (st, some (CallbackCall.chatCb m))
    else if data.typeField == some "end" then
      ({ st with active_subscriptions :=
          st.active_subscriptions.filter (fun w => w ≠ video_id) },
       none)
    else (st, none)

/-! ## Channel cache (`channel_cache.py`) -/

/-- The field subset of a cached channel record kept by
`_initialize_channel_cache` (identity is `id`; the setter indexes by `id` and
`name`). -/
structure ChannelRecord where
  id : String
  name : String
  yt_handle : String
  english_name : String
  org : String
  photo : String
deriving DecidableEq, Repr

/-- The mutable state of `ChannelCache` (file I/O idealised: saving always
succeeds and stamps `last_update`). -/
structure ChannelCacheState where
  channels : List ChannelRecord
  channel_by_name : List (String × ChannelRecord)
  channel_by_id : List (String × ChannelRecord)
  channel_by_handle : List (String × ChannelRecord)
  last_update : Int
deriving DecidableEq, Repr

/-- Mirror of the `channels` property setter: stores the list, rebuilds the
by-name and by-id dicts, and resets the by-handle dict to empty. -/
def setChannels (st : ChannelCacheState) (value : List ChannelRecord) :
    ChannelCacheState :=
  { st with
    channels := value
    channel_by_name := buildDict value (fun c => c.name)
    channel_by_id := buildDict value (fun c => c.id)
    channel_by_handle := [] }

/-- Mirror of `ChannelCache.save_cache` with the file write idealised as
succeeding. -/
def saveCache (st : ChannelCacheState) (now : Int) : ChannelCacheState × Bool :=
  ({ st with last_update := now }, true)

/-- Mirror of `ChannelCache.update_cache`: refuses an empty list (returning
false and leaving all state untouched), otherwise runs the setter and saves. -/
def updateCache (st : ChannelCacheState) (channels : List ChannelRecord)
    (now : Int) : ChannelCacheState × Bool :=
  if channels.isEmpty then (st, false)
  else saveCache (setChannels st channels) now

/-- Mirror of `ChannelCache.get_channel_by_id`. -/
def getChannelById (st : ChannelCacheState) (channel_id : String) :
    Option ChannelRecord :=
  lookupA st.channel_by_id channel_id

/-- Mirror of `ChannelCache.get_channel_by_name`. -/
def getChannelByName (st : ChannelCacheState) (channel_name : String) :
    Option ChannelRecord :=
  lookupA st.channel_by_name channel_name

/-- Mirror of `ChannelCache.get_channel_by_handle`. -/
def getChannelByHandle (st : ChannelCacheState) (channel_handle : String) :
    Option ChannelRecord :=
  lookupA st.channel_by_handle channel_handle

/-! ## Rate-limit backoff (`HolodexAPI.get_all_channels`) -/

/-- One response's effect on the inter-request delay in
`get_all_channels`: a 429 multiplies the delay by 1.5 capped at 5.0 seconds;
every other outcome leaves it unchanged.  All reachable values are exactly
representable binary doubles, so ℚ models the source's float arithmetic
exactly. -/
def delayStep (d : ℚ) (is429 : Bool) : ℚ :=
  if is429 then min (d * (3 / 2)) 5 else d

/-- The delay in effect after a sequence of responses (`true` = HTTP 429),
starting from the fetch's initial 0.5 seconds. -/
def delayAfter (responses : List Bool) : ℚ :=
  responses.foldl delayStep (1 / 2)

/-! ## Derived notions used in statements -/

/-- The membership of one video id in the subscription set after its
snapshot entry has been processed by the diff loop, as a function of its
membership before: on a status transition an eligible stream becomes
subscribed, a members-only one unsubscribed, anything else (e.g. a stream
reported as ended) keeps its previous membership; without a transition
nothing changes. -/
def itemMemAfter (prev : Option Snapshot) (w : String) (e : StreamEvent)
    (before : Prop) : Prop :=
  if statusTransition prev w e then
    if eligible e then True
    else if e.members_only then False
    else before
  else before

/-- A sample stream event used in concrete scenarios. -/
def mkStream (vid stat : String) (mo : Bool) (stt : Option Int) : StreamEvent :=
  { video_id := vid
    channel_id := "UCch1"
    title := "title"
    channel_name := "chan"
    thumbnail := "thumb"
    status := stat
    start_time := stt
    live_viewers := none
    members_only := mo }

/-- Frame predicate: the second state differs from the first at most in its
subscription set. -/
def subsOnly (st st2 : EngineState) : Prop :=
  ∃ s, st2 = { st with active_subscriptions := s }

/-- A sample chat payload used in concrete scenarios. -/
def mkPayload (name message : Option String) (vtuber : Option Bool) :
    ChatPayload :=
  { name := name
    timestamp := none
    video_offset := none
    message := message
    is_tl := none
    is_moderator := none
    is_vtuber := vtuber
    is_verified := none
    source := none
    typeField := none }

/-- A sample channel record used in concrete scenarios. -/
def mkChannel (i n h : String) : ChannelRecord :=
  { id := i, name := n, yt_handle := h, english_name := "", org := "", photo := "" }

/-- A freshly constructed channel cache (empty indices). -/
def emptyCache : ChannelCacheState :=
  { channels := [], channel_by_name := [], channel_by_id := [],
    channel_by_handle := [], last_update := 0 }

/-! ## Dict lemmas -/

theorem lookupA_upsert_self {α : Type} (m : List (String × α)) (k : String)
    (v : α) : lookupA (upsert m k v) k = some v := by
  unfold upsert
  split
  · rename_i h
    unfold lookupA
    rw [List.find?_map]
    have hp : ((fun p : String × α => p.1 == k) ∘
        (fun p : String × α => if p.1 == k then (k, v) else p)) =
        (fun p : String × α => p.1 == k) := by
      funext q
      by_cases hq : q.1 = k
      · simp [hq]
      · simp [hq]
    rw [hp]
    rcases hf : List.find? (fun p : String × α => p.1 == k) m with _ | q
    · rw [hf] at h; simp at h
    · have hq := List.find?_some hf
      simp only [beq_iff_eq] at hq
      simp only [Option.map_map, Option.map_some']
      simp [hq]
  · unfold lookupA
    rename_i h
    rw [List.find?_append]
    have hnone : List.find? (fun p : String × α => p.1 == k) m = none := by
      rcases hf : List.find? (fun p : String × α => p.1 == k) m with _ | q
      · rfl
      · rw [hf] at h; simp at h
    simp [hnone]

theorem lookupA_upsert_ne {α : Type} (m : List (String × α)) (k k0 : String)
    (v : α) (hne : k0 ≠ k) : lookupA (upsert m k v) k0 = lookupA m k0 := by
  unfold upsert
  split
  · unfold lookupA
    rw [List.find?_map]
    have hp : ((fun p : String × α => p.1 == k0) ∘
        (fun p : String × α => if p.1 == k then (k, v) else p)) =
        (fun p : String × α => p.1 == k0) := by
      funext q
      by_cases hq : q.1 = k
      · simp [hq, Ne.symm hne, (by simpa using hne.symm : (k == k0) = false)]
      · simp [hq]
    rw [hp]
    rcases hf : List.find? (fun p : String × α => p.1 == k0) m with _ | q
    · simp
    · have hq := List.find?_some hf
      simp only [beq_iff_eq] at hq
      simp only [Option.map_map, Option.map_some']
      have hqk : ¬ (q.1 == k) = true := by
        simp only [beq_iff_eq, hq]
        exact hne
      simp only [Function.comp_apply, if_neg hqk]
  · unfold lookupA
    rw [List.find?_append]
    have hkk0 : (k == k0) = false := by
      simp only [beq_eq_false_iff_ne]
      exact fun he => hne he.symm
    have htail : List.find? (fun p : String × α => p.1 == k0) [(k, v)] = none := by
      simp [List.find?, hkk0]
    rw [htail, Option.or_none]

theorem lookupA_foldl_upsert {α : Type} (key : α → String) :
    ∀ (value : List α) (m : List (String × α)) (k : String),
    lookupA (value.foldl (fun acc c => upsert acc (key c) c) m) k =
      ((value.reverse.find? (fun c => key c == k)).map id).or (lookupA m k) := by
  intro value
  induction value with
  | nil => intro m k; simp
  | cons c rest ih =>
    intro m k
    simp only [List.foldl_cons, List.reverse_cons, List.find?_append]
    rw [ih]
    by_cases hc : key c = k
    · have h1 : lookupA (upsert m (key c) c) k = some c := by
        rw [hc] at *
        exact lookupA_upsert_self m k c
      rw [h1]
      rcases hf : List.find? (fun x => key x == k) rest.reverse with _ | q
      · simp [hc]
      · simp [hc]
    · have h1 : lookupA (upsert m (key c) c) k = lookupA m k :=
        lookupA_upsert_ne m (key c) k c (fun he => hc he.symm)
      rw [h1]
      rcases hf : List.find? (fun x => key x == k) rest.reverse with _ | q
      · simp [hc]
      · simp [hc]

theorem lookupA_buildDict {α : Type} (value : List α) (key : α → String)
    (k : String) :
    lookupA (buildDict value key) k =
      value.reverse.find? (fun c => key c == k) := by
  unfold buildDict
  rw [lookupA_foldl_upsert]
  unfold lookupA
  simp [Option.or_none]

theorem lookupA_eq_none_iff {α : Type} (m : List (String × α)) (k : String) :
    lookupA m k = none ↔ k ∉ m.map Prod.fst := by
  unfold lookupA
  rw [Option.map_eq_none']
  rw [List.find?_eq_none]
  constructor
  · intro h hk
    rcases List.mem_map.mp hk with ⟨p, hp, hpk⟩
    have := h p hp
    simp only [beq_iff_eq] at this
    exact this hpk
  · intro h p hp
    simp only [beq_iff_eq]
    intro hpk
    exact h (List.mem_map.mpr ⟨p, hp, hpk⟩)

theorem mem_keys_of_lookupA {α : Type} (m : List (String × α)) (k : String)
    (e : α) (h : lookupA m k = some e) : k ∈ m.map Prod.fst := by
  by_contra hk
  rw [← lookupA_eq_none_iff] at hk
  rw [h] at hk
  exact Option.noConfusion hk

theorem keys_upsert_present {α : Type} (m : List (String × α)) (k : String)
    (v : α) (h : (m.find? (fun p => p.1 == k)).isSome) :
    (upsert m k v).map Prod.fst = m.map Prod.fst := by
  unfold upsert
  rw [if_pos h, List.map_map]
  apply List.map_congr_left
  intro p _
  by_cases hpk : p.1 = k
  · simp [hpk]
  · simp [hpk]

theorem keys_upsert_absent {α : Type} (m : List (String × α)) (k : String)
    (v : α) (h : ¬ (m.find? (fun p => p.1 == k)).isSome) :
    (upsert m k v).map Prod.fst = m.map Prod.fst ++ [k] := by
  unfold upsert
  rw [if_neg h]
  simp

theorem keys_upsert_nodup {α : Type} (m : List (String × α)) (k : String)
    (v : α) (hnd : (m.map Prod.fst).Nodup) :
    ((upsert m k v).map Prod.fst).Nodup := by
  by_cases h : (m.find? (fun p => p.1 == k)).isSome
  · rw [keys_upsert_present m k v h]; exact hnd
  · rw [keys_upsert_absent m k v h]
    have hk : k ∉ m.map Prod.fst := by
      rw [← lookupA_eq_none_iff]
      unfold lookupA
      rcases hf : m.find? (fun p => p.1 == k) with _ | q
      · rw [hf]; rfl
      · rw [hf] at h; simp at h
    rw [List.nodup_append]
    exact ⟨hnd, List.nodup_singleton k,
      fun a ha hb => hk (by rwa [List.mem_singleton.mp hb] at ha)⟩

theorem foldl_upsert_keys_nodup {α : Type} (key : α → String) :
    ∀ (value : List α) (m : List (String × α)),
    (m.map Prod.fst).Nodup →
    (((value.foldl (fun acc c => upsert acc (key c) c) m)).map Prod.fst).Nodup := by
  intro value
  induction value with
  | nil => intro m hm; exact hm
  | cons c rest ih =>
    intro m hm
    exact ih (upsert m (key c) c) (keys_upsert_nodup m (key c) c hm)

theorem buildDict_keys_nodup {α : Type} (value : List α) (key : α → String) :
    ((buildDict value key).map Prod.fst).Nodup :=
  foldl_upsert_keys_nodup key value [] List.nodup_nil

/-! ## Frame lemmas: the chat operations only touch the subscription set -/

theorem subsOnly_refl (st : EngineState) : subsOnly st st :=
  ⟨st.active_subscriptions, rfl⟩

theorem subsOnly_trans {a b c : EngineState} (h1 : subsOnly a b)
    (h2 : subsOnly b c) : subsOnly a c := by
  rcases h1 with ⟨s1, rfl⟩
  rcases h2 with ⟨s2, rfl⟩
  exact ⟨s2, rfl⟩

theorem subsOnly_ws {a b : EngineState} (h : subsOnly a b) :
    b.ws_connected = a.ws_connected := by
  rcases h with ⟨s, rfl⟩; rfl

theorem subsOnly_cur {a b : EngineState} (h : subsOnly a b) :
    b.current_streams = a.current_streams := by
  rcases h with ⟨s, rfl⟩; rfl

theorem subsOnly_running {a b : EngineState} (h : subsOnly a b) :
    b.running = a.running := by
  rcases h with ⟨s, rfl⟩; rfl

theorem subscribeToChat_subsOnly (st : EngineState) (v : String) :
    subsOnly st (subscribeToChat st v).1 := by
  unfold subscribeToChat
  split
  · exact ⟨_, rfl⟩
  · exact subsOnly_refl st

theorem unsubscribeFromChat_subsOnly (st : EngineState) (v : String) :
    subsOnly st (unsubscribeFromChat st v).1 := by
  unfold unsubscribeFromChat
  split
  · exact ⟨_, rfl⟩
  · exact subsOnly_refl st

theorem ite_pair_subsOnly {c : Prop} [Decidable c] {st : EngineState}
    {x y : EngineState × List Action} (hx : subsOnly st x.1)
    (hy : subsOnly st y.1) : subsOnly st (if c then x else y).1 := by
  split
  · exact hx
  · exact hy

theorem processStreamItem_subsOnly (prev : Option Snapshot) (now : Int)
    (st : EngineState) (v : String) (e : StreamEvent) :
    subsOnly st (processStreamItem prev now st v e).1 := by
  unfold processStreamItem
  split
  · dsimp only
    apply ite_pair_subsOnly
    · refine subsOnly_trans ?_ (unsubscribeFromChat_subsOnly _ v)
      apply ite_pair_subsOnly
      · apply ite_pair_subsOnly
        · exact subscribeToChat_subsOnly st v
        · exact subsOnly_refl st
      · exact subsOnly_refl st
    · apply ite_pair_subsOnly
      · apply ite_pair_subsOnly
        · exact subscribeToChat_subsOnly st v
        · exact subsOnly_refl st
      · exact subsOnly_refl st
  · exact subsOnly_refl st

theorem processItems_subsOnly (prev : Option Snapshot) (now : Int) :
    ∀ (items : List (String × StreamEvent)) (st : EngineState),
    subsOnly st (processItems prev now st items).1 := by
  intro items
  induction items with
  | nil => intro st; exact subsOnly_refl st
  | cons p rest ih =>
    intro st
    rcases p with ⟨v, e⟩
    exact subsOnly_trans (processStreamItem_subsOnly prev now st v e) (ih _)

theorem processEnded_subsOnly (snap : Snapshot) :
    ∀ (oldKeys : List String) (st : EngineState),
    subsOnly st (processEnded snap st oldKeys).1 := by
  intro oldKeys
  induction oldKeys with
  | nil => intro st; exact subsOnly_refl st
  | cons v rest ih =>
    intro st
    unfold processEnded
    dsimp only
    have h1 : subsOnly st (if (lookupA snap v).isNone &&
          decide (v ∈ st.active_subscriptions) then
          unsubscribeFromChat st v else (st, ([] : List Action))).1 := by
      split
      · exact unsubscribeFromChat_subsOnly st v
      · exact subsOnly_refl st
    exact subsOnly_trans h1 (ih _)

theorem resubscribeLoop1_subsOnly :
    ∀ (vids : List String) (st : EngineState),
    subsOnly st (resubscribeLoop1 st vids).1 := by
  intro vids
  induction vids with
  | nil => intro st; exact subsOnly_refl st
  | cons v rest ih =>
    intro st
    exact subsOnly_trans (subscribeToChat_subsOnly st v) (ih _)

theorem resubscribeLoop2_subsOnly :
    ∀ (items : List (String × StreamEvent)) (st : EngineState),
    subsOnly st (resubscribeLoop2 st items).1 := by
  intro items
  induction items with
  | nil => intro st; exact subsOnly_refl st
  | cons p rest ih =>
    intro st
    rcases p with ⟨v, e⟩
    unfold resubscribeLoop2
    dsimp only
    have h1 : subsOnly st (if eligible e && !(decide (v ∈ st.active_subscriptions)) then
          subscribeToChat st v else (st, ([] : List Action))).1 := by
      split
      · exact subscribeToChat_subsOnly st v
      · exact subsOnly_refl st
    exact subsOnly_trans h1 (ih _)

/-! ## Membership of the subscription set through each operation -/

theorem subscribeToChat_mem (st : EngineState) (v : String)
    (hws : st.ws_connected = true) (w : String) :
    w ∈ (subscribeToChat st v).1.active_subscriptions ↔
      w = v ∨ w ∈ st.active_subscriptions := by
  unfold subscribeToChat
  rw [if_pos hws]
  by_cases hv : v ∈ st.active_subscriptions
  · rw [if_pos hv]
    constructor
    · intro h; exact Or.inr h
    · rintro (rfl | h)
      · exact hv
      · exact h
  · rw [if_neg hv]
    simp only [List.mem_append, List.mem_singleton]
    tauto

theorem unsubscribeFromChat_mem (st : EngineState) (v : String)
    (hws : st.ws_connected = true) (w : String) :
    w ∈ (unsubscribeFromChat st v).1.active_subscriptions ↔
      w ∈ st.active_subscriptions ∧ w ≠ v := by
  unfold unsubscribeFromChat
  rw [if_pos hws]
  simp [List.mem_filter]

theorem itemMemAfter_congr (prev : Option Snapshot) (w : String)
    (e : StreamEvent) {b1 b2 : Prop} (h : b1 ↔ b2) :
    itemMemAfter prev w e b1 ↔ itemMemAfter prev w e b2 := by
  unfold itemMemAfter
  split
  · split
    · exact Iff.rfl
    · split
      · exact Iff.rfl
      · exact h
  · exact h

theorem eligible_members_only_false {e : StreamEvent}
    (h : eligible e = true) : e.members_only = false := by
  revert h
  unfold eligible
  cases e.members_only
  · intro _; rfl
  · intro h; simp at h

theorem processStreamItem_mem (prev : Option Snapshot) (now : Int)
    (st : EngineState) (v : String) (e : StreamEvent)
    (hws : st.ws_connected = true) (w : String) :
    w ∈ (processStreamItem prev now st v e).1.active_subscriptions ↔
      (if w = v then itemMemAfter prev v e (v ∈ st.active_subscriptions)
       else w ∈ st.active_subscriptions) := by
  cases ht : statusTransition prev v e with
  | false =>
    by_cases hw : w = v
    · subst hw
      simp [processStreamItem, ht, itemMemAfter]
    · simp [processStreamItem, ht, hw]
  | true =>
    cases hel : eligible e with
    | true =>
      have hmo : e.members_only = false := eligible_members_only_false hel
      by_cases hv : v ∈ st.active_subscriptions
      · by_cases hw : w = v
        · subst hw
          simp [processStreamItem, ht, hel, hmo, hv, itemMemAfter]
        · simp [processStreamItem, ht, hel, hmo, hv, hw]
      · by_cases hw : w = v
        · subst hw
          simp [processStreamItem, ht, hel, hmo, hv, itemMemAfter,
            subscribeToChat, hws]
        · simp [processStreamItem, ht, hel, hmo, hv, hw,
            subscribeToChat, hws]
    | false =>
      cases hmo : e.members_only with
      | false =>
        by_cases hw : w = v
        · subst hw
          simp [processStreamItem, ht, hel, hmo, itemMemAfter]
        · simp [processStreamItem, ht, hel, hmo, hw]
      | true =>
        by_cases hv : v ∈ st.active_subscriptions
        · by_cases hw : w = v
          · subst hw
            simp [processStreamItem, ht, hel, hmo, hv, itemMemAfter,
              unsubscribeFromChat, hws, List.mem_filter]
          · simp [processStreamItem, ht, hel, hmo, hv, hw,
              unsubscribeFromChat, hws, List.mem_filter]
        · by_cases hw : w = v
          · subst hw
            simp [processStreamItem, ht, hel, hmo, hv, itemMemAfter]
          · simp [processStreamItem, ht, hel, hmo, hv, hw]

theorem processItems_mem (prev : Option Snapshot) (now : Int) :
    ∀ (items : List (String × StreamEvent)) (st : EngineState),
    st.ws_connected = true → (items.map Prod.fst).Nodup → ∀ w : String,
    (w ∈ (processItems prev now st items).1.active_subscriptions ↔
      (match items.find? (fun p => p.1 == w) with
       | some p => itemMemAfter prev w p.2 (w ∈ st.active_subscriptions)
       | none => w ∈ st.active_subscriptions)) := by
  intro items
  induction items with
  | nil =>
    intro st _ _ w
    exact Iff.rfl
  | cons pr rest ih =>
    intro st hws hnd w
    rcases pr with ⟨v, e⟩
    rw [List.map_cons, List.nodup_cons] at hnd
    have hws1 : (processStreamItem prev now st v e).1.ws_connected = true := by
      rw [subsOnly_ws (processStreamItem_subsOnly prev now st v e)]
      exact hws
    have hmain := ih (processStreamItem prev now st v e).1 hws1 hnd.2 w
    show w ∈ (processItems prev now (processStreamItem prev now st v e).1
        rest).1.active_subscriptions ↔ _
    rw [hmain]
    by_cases hvw : v = w
    · subst hvw
      have hrest : rest.find? (fun p => p.1 == v) = none := by
        rw [List.find?_eq_none]
        intro p hp
        simp only [beq_iff_eq]
        intro hpk
        exact hnd.1 (hpk ▸ List.mem_map.mpr ⟨p, hp, rfl⟩)
      rw [hrest]
      have hcons : List.find? (fun p : String × StreamEvent => p.1 == v)
          ((v, e) :: rest) = some (v, e) := by
        rw [List.find?_cons_of_pos]
        simp
      rw [hcons]
      rw [processStreamItem_mem prev now st v e hws v]
      simp
    · have hcons : List.find? (fun p : String × StreamEvent => p.1 == w)
          ((v, e) :: rest) = rest.find? (fun p => p.1 == w) := by
        rw [List.find?_cons_of_neg]
        simp [hvw]
      rw [hcons]
      have hstep : w ∈ (processStreamItem prev now st v e).1.active_subscriptions ↔
          w ∈ st.active_subscriptions := by
        rw [processStreamItem_mem prev now st v e hws w]
        rw [if_neg (fun h => hvw h.symm)]
      rcases hf : rest.find? (fun p => p.1 == w) with _ | p
      · simp only [hf]
        exact hstep
      · simp only [hf]
        exact itemMemAfter_congr prev w p.2 hstep

theorem processEnded_mem (snap : Snapshot) :
    ∀ (oldKeys : List String) (st : EngineState),
    st.ws_connected = true → ∀ w : String,
    (w ∈ (processEnded snap st oldKeys).1.active_subscriptions ↔
      (w ∈ st.active_subscriptions ∧ ¬(w ∈ oldKeys ∧ lookupA snap w = none))) := by
  intro oldKeys
  induction oldKeys with
  | nil =>
    intro st _ w
    simp only [List.not_mem_nil, false_and, not_false_iff, and_true]
    exact Iff.rfl
  | cons v rest ih =>
    intro st hws w
    have hstepOnly : subsOnly st (if (lookupA snap v).isNone &&
        decide (v ∈ st.active_subscriptions) then
        unsubscribeFromChat st v else (st, ([] : List Action))).1 := by
      split
      · exact unsubscribeFromChat_subsOnly st v
      · exact subsOnly_refl st
    have hws1 : (if (lookupA snap v).isNone &&
        decide (v ∈ st.active_subscriptions) then
        unsubscribeFromChat st v else (st, ([] : List Action))).1.ws_connected = true := by
      rw [subsOnly_ws hstepOnly]; exact hws
    have hstep : ∀ u : String,
        u ∈ (if (lookupA snap v).isNone && decide (v ∈ st.active_subscriptions) then
          unsubscribeFromChat st v else (st, ([] : List Action))).1.active_subscriptions ↔
        (u ∈ st.active_subscriptions ∧ ¬(u = v ∧ lookupA snap v = none)) := by
      intro u
      by_cases hn : lookupA snap v = none
      · have hcond : (lookupA snap v).isNone = true := by rw [hn]; rfl
        by_cases hv : v ∈ st.active_subscriptions
        · rw [if_pos (by rw [hcond]; simp [hv])]
          rw [unsubscribeFromChat_mem st v hws u]
          constructor
          · rintro ⟨hu, hne⟩
            exact ⟨hu, fun hc => hne hc.1⟩
          · rintro ⟨hu, hne⟩
            exact ⟨hu, fun he => hne ⟨he, hn⟩⟩
        · rw [if_neg (by rw [hcond]; simp [hv])]
          constructor
          · intro hu
            refine ⟨hu, ?_⟩
            rintro ⟨rfl, _⟩
            exact hv hu
          · rintro ⟨hu, _⟩
            exact hu
      · have hcond : ((lookupA snap v).isNone &&
            decide (v ∈ st.active_subscriptions)) = false := by
          rcases hl2 : lookupA snap v with _ | e0
          · exact absurd hl2 hn
          · rfl
        rw [if_neg (by rw [hcond]; exact Bool.false_ne_true)]
        constructor
        · intro hu
          exact ⟨hu, fun hc => hn hc.2⟩
        · rintro ⟨hu, _⟩
          exact hu
    show w ∈ (processEnded snap _ rest).1.active_subscriptions ↔ _
    rw [ih _ hws1 w, hstep w]
    constructor
    · rintro ⟨⟨hw, hnv⟩, hnr⟩
      refine ⟨hw, ?_⟩
      rintro ⟨hmem, hnone⟩
      rcases List.mem_cons.mp hmem with rfl | hmem2
      · exact hnv ⟨rfl, hnone⟩
      · exact hnr ⟨hmem2, hnone⟩
    · rintro ⟨hw, hn⟩
      refine ⟨⟨hw, ?_⟩, ?_⟩
      · rintro ⟨rfl, hnone⟩
        exact hn ⟨List.mem_cons_self _ _, hnone⟩
      · rintro ⟨hmem2, hnone⟩
        exact hn ⟨List.mem_cons_of_mem _ hmem2, hnone⟩

/-! ## Whole-cycle characterisations of `updateStreams` -/

theorem updateStreams_unfold (tracked : List String) (now : Int)
    (st : EngineState) (data : List StreamEvent) (htr : tracked ≠ []) :
    updateStreams tracked now st (some data) =
      (let snap := buildDict data (fun e => e.video_id)
       let p := processItems st.current_streams now st snap
       let q :=
         match st.current_streams with
         | none => (p.1, ([] : List Action))
         | some old => processEnded snap p.1 (old.map Prod.fst)
       ({ q.1 with current_streams := some snap }, p.2 ++ q.2)) := by
  have hemp : tracked.isEmpty = false := List.isEmpty_eq_false.mpr htr
  unfold updateStreams
  rw [hemp]
  rfl

theorem updateStreams_cur (tracked : List String) (now : Int)
    (st : EngineState) (data : List StreamEvent) (htr : tracked ≠ []) :
    (updateStreams tracked now st (some data)).1.current_streams =
      some (buildDict data (fun e => e.video_id)) := by
  rw [updateStreams_unfold tracked now st data htr]

theorem updateStreams_mem (tracked : List String) (now : Int)
    (st : EngineState) (data : List StreamEvent) (htr : tracked ≠ [])
    (hws : st.ws_connected = true) (w : String) :
    w ∈ (updateStreams tracked now st (some data)).1.active_subscriptions ↔
      (match lookupA (buildDict data (fun e => e.video_id)) w with
       | some e => itemMemAfter st.current_streams w e (w ∈ st.active_subscriptions)
       | none =>
         w ∈ st.active_subscriptions ∧
           (match st.current_streams with
            | none => True
            | some old => w ∉ old.map Prod.fst)) := by
  rw [updateStreams_unfold tracked now st data htr]
  dsimp only
  rcases hcs : st.current_streams with _ | old
  · have hitems := processItems_mem none now
      (buildDict data (fun e => e.video_id)) st hws
      (buildDict_keys_nodup data (fun e => e.video_id)) w
    show w ∈ (processItems none now st
        (buildDict data (fun e => e.video_id))).1.active_subscriptions ↔
      (match lookupA (buildDict data (fun e => e.video_id)) w with
       | some e => itemMemAfter none w e (w ∈ st.active_subscriptions)
       | none => w ∈ st.active_subscriptions ∧ True)
    rw [hitems]
    rcases hf : (buildDict data (fun e => e.video_id)).find?
        (fun p => p.1 == w) with _ | pr
    · have hlk : lookupA (buildDict data (fun e => e.video_id)) w = none := by
        unfold lookupA
        rw [hf]
        rfl
      simp only [hf, hlk, and_true]
    · have hlk : lookupA (buildDict data (fun e => e.video_id)) w = some pr.2 := by
        unfold lookupA
        rw [hf]
        rfl
      simp only [hf, hlk]
  · have hpOnly := processItems_subsOnly (some old) now
      (buildDict data (fun e => e.video_id)) st
    have hwsp : (processItems (some old) now st
        (buildDict data (fun e => e.video_id))).1.ws_connected = true := by
      rw [subsOnly_ws hpOnly]
      exact hws
    have hended := processEnded_mem (buildDict data (fun e => e.video_id))
      (old.map Prod.fst)
      (processItems (some old) now st (buildDict data (fun e => e.video_id))).1
      hwsp w
    show w ∈ (processEnded (buildDict data (fun e => e.video_id))
        (processItems (some old) now st
          (buildDict data (fun e => e.video_id))).1
        (old.map Prod.fst)).1.active_subscriptions ↔
      (match lookupA (buildDict data (fun e => e.video_id)) w with
       | some e => itemMemAfter (some old) w e (w ∈ st.active_subscriptions)
       | none => w ∈ st.active_subscriptions ∧ w ∉ old.map Prod.fst)
    rw [hended]
    have hitems := processItems_mem (some old) now
      (buildDict data (fun e => e.video_id)) st hws
      (buildDict_keys_nodup data (fun e => e.video_id)) w
    rw [hitems]
    rcases hf : (buildDict data (fun e => e.video_id)).find?
        (fun p => p.1 == w) with _ | pr
    · have hlk : lookupA (buildDict data (fun e => e.video_id)) w = none := by
        unfold lookupA
        rw [hf]
        rfl
      simp only [hf, hlk, and_true]
    · have hlk : lookupA (buildDict data (fun e => e.video_id)) w = some pr.2 := by
        unfold lookupA
        rw [hf]
        rfl
      simp only [hf, hlk]
      constructor
      · rintro ⟨h1, _⟩
        exact h1
      · intro h1
        exact ⟨h1, by rintro ⟨_, hc⟩; exact Option.noConfusion hc⟩

/-! ## Trace characterisations -/

theorem emittedOf_append (t1 t2 : List Action) :
    emittedOf (t1 ++ t2) = emittedOf t1 ++ emittedOf t2 := by
  unfold emittedOf
  exact List.filterMap_append t1 t2 _

theorem subFramesOf_append (t1 t2 : List Action) :
    subFramesOf (t1 ++ t2) = subFramesOf t1 ++ subFramesOf t2 := by
  unfold subFramesOf
  exact List.filterMap_append t1 t2 _

theorem unsubFramesOf_append (t1 t2 : List Action) :
    unsubFramesOf (t1 ++ t2) = unsubFramesOf t1 ++ unsubFramesOf t2 := by
  unfold unsubFramesOf
  exact List.filterMap_append t1 t2 _

theorem emittedOf_subscribeToChat (st : EngineState) (v : String) :
    emittedOf (subscribeToChat st v).2 = [] := by
  unfold subscribeToChat
  split
  · rfl
  · rfl

theorem emittedOf_unsubscribeFromChat (st : EngineState) (v : String) :
    emittedOf (unsubscribeFromChat st v).2 = [] := by
  unfold unsubscribeFromChat
  split
  · rfl
  · rfl

theorem processStreamItem_emitted (prev : Option Snapshot) (now : Int)
    (st : EngineState) (v : String) (e : StreamEvent) :
    emittedOf (processStreamItem prev now st v e).2 =
      (if statusTransition prev v e && emitDecision prev now e then [e] else []) := by
  cases ht : statusTransition prev v e with
  | false =>
    simp only [processStreamItem, ht, Bool.false_eq_true, if_false,
      Bool.false_and]
    rfl
  | true =>
    simp only [processStreamItem, ht, if_true, Bool.true_and]
    rw [emittedOf_append, emittedOf_append]
    have h2 : emittedOf (if eligible e && !(decide (v ∈ st.active_subscriptions)) then
        if st.ws_connected then subscribeToChat st v else (st, ([] : List Action))
        else (st, ([] : List Action))).2 = [] := by
      split
      · split
        · exact emittedOf_subscribeToChat st v
        · rfl
      · rfl
    have h3 : ∀ st2 : EngineState,
        emittedOf (if e.members_only && decide (v ∈ st2.active_subscriptions) then
          unsubscribeFromChat st2 v else (st2, ([] : List Action))).2 = [] := by
      intro st2
      split
      · exact emittedOf_unsubscribeFromChat st2 v
      · rfl
    rw [h2, h3]
    cases hd : emitDecision prev now e with
    | false => simp [emittedOf]
    | true => simp [emittedOf]

theorem processItems_emitted (prev : Option Snapshot) (now : Int) :
    ∀ (items : List (String × StreamEvent)) (st : EngineState),
    emittedOf (processItems prev now st items).2 =
      (items.filter (fun p =>
        statusTransition prev p.1 p.2 && emitDecision prev now p.2)).map
        Prod.snd := by
  intro items
  induction items with
  | nil => intro st; rfl
  | cons pr rest ih =>
    intro st
    rcases pr with ⟨v, e⟩
    show emittedOf ((processStreamItem prev now st v e).2 ++
      (processItems prev now (processStreamItem prev now st v e).1 rest).2) = _
    rw [emittedOf_append, processStreamItem_emitted, ih]
    rw [List.filter_cons]
    cases hc : statusTransition prev v e && emitDecision prev now e with
    | false => simp
    | true => simp

theorem processEnded_emitted (snap : Snapshot) :
    ∀ (oldKeys : List String) (st : EngineState),
    emittedOf (processEnded snap st oldKeys).2 = [] := by
  intro oldKeys
  induction oldKeys with
  | nil => intro st; rfl
  | cons v rest ih =>
    intro st
    show emittedOf ((if (lookupA snap v).isNone &&
        decide (v ∈ st.active_subscriptions) then
        unsubscribeFromChat st v else (st, ([] : List Action))).2 ++ _) = []
    rw [emittedOf_append, ih]
    have h1 : emittedOf (if (lookupA snap v).isNone &&
        decide (v ∈ st.active_subscriptions) then
        unsubscribeFromChat st v else (st, ([] : List Action))).2 = [] := by
      split
      · exact emittedOf_unsubscribeFromChat st v
      · rfl
    rw [h1]
    rfl

theorem updateStreams_emitted (tracked : List String) (now : Int)
    (st : EngineState) (data : List StreamEvent) (htr : tracked ≠ []) :
    emittedOf (updateStreams tracked now st (some data)).2 =
      ((buildDict data (fun e => e.video_id)).filter (fun p =>
        statusTransition st.current_streams p.1 p.2 &&
          emitDecision st.current_streams now p.2)).map Prod.snd := by
  rw [updateStreams_unfold tracked now st data htr]
  dsimp only
  rcases hcs : st.current_streams with _ | old
  · show emittedOf ((processItems none now st
        (buildDict data (fun e => e.video_id))).2 ++ []) = _
    rw [emittedOf_append, processItems_emitted]
    simp [emittedOf]
  · show emittedOf ((processItems (some old) now st
        (buildDict data (fun e => e.video_id))).2 ++
        (processEnded (buildDict data (fun e => e.video_id))
          (processItems (some old) now st
            (buildDict data (fun e => e.video_id))).1
          (old.map Prod.fst)).2) = _
    rw [emittedOf_append, processItems_emitted, processEnded_emitted]
    simp

/-! ## Reconnection lemmas -/

theorem resubscribeLoop1_already :
    ∀ (vids : List String) (st : EngineState), st.ws_connected = true →
    (∀ v ∈ vids, v ∈ st.active_subscriptions) →
    resubscribeLoop1 st vids = (st, vids.map Action.subFrame) := by
  intro vids
  induction vids with
  | nil => intro st _ _; rfl
  | cons v rest ih =>
    intro st hws hall
    have h1 : subscribeToChat st v = (st, [Action.subFrame v]) := by
      unfold subscribeToChat
      rw [if_pos hws, if_pos (hall v (List.mem_cons_self v rest))]
    show ((resubscribeLoop1 (subscribeToChat st v).1 rest).1,
      (subscribeToChat st v).2 ++ (resubscribeLoop1 (subscribeToChat st v).1 rest).2) = _
    rw [h1]
    rw [ih st hws (fun u hu => hall u (List.mem_cons_of_mem v hu))]
    rfl

theorem subscribeToChat_mem_mono (st : EngineState) (v w : String)
    (hw : w ∈ st.active_subscriptions) :
    w ∈ (subscribeToChat st v).1.active_subscriptions := by
  unfold subscribeToChat
  split
  · dsimp only
    split
    · exact hw
    · exact List.mem_append_left _ hw
  · exact hw

theorem subFramesOf_subscribeToChat (st : EngineState) (v : String)
    (hws : st.ws_connected = true) :
    subFramesOf (subscribeToChat st v).2 = [v] := by
  unfold subscribeToChat
  rw [if_pos hws]
  rfl

theorem resubscribeLoop2_frames_disjoint :
    ∀ (items : List (String × StreamEvent)) (st : EngineState) (w : String),
    st.ws_connected = true → w ∈ st.active_subscriptions →
    w ∉ subFramesOf (resubscribeLoop2 st items).2 := by
  intro items
  induction items with
  | nil => intro st w _ _ h; exact List.not_mem_nil w h
  | cons pr rest ih =>
    intro st w hws hw
    rcases pr with ⟨v, e⟩
    show w ∉ subFramesOf ((if eligible e && !(decide (v ∈ st.active_subscriptions)) then
        subscribeToChat st v else (st, ([] : List Action))).2 ++ _)
    rw [subFramesOf_append]
    intro hmem
    rcases List.mem_append.mp hmem with hmem1 | hmem2
    · revert hmem1
      split
      · rename_i hc
        rw [subFramesOf_subscribeToChat st v hws]
        intro hmem1
        have hwv : w = v := List.mem_singleton.mp hmem1
        subst hwv
        simp only [Bool.and_eq_true, Bool.not_eq_true', decide_eq_false_iff_not] at hc
        exact hc.2 hw
      · intro hmem1
        exact List.not_mem_nil w hmem1
    · revert hmem2
      split
      · rename_i hc
        have hws2 : (subscribeToChat st v).1.ws_connected = true := by
          rw [subsOnly_ws (subscribeToChat_subsOnly st v)]
          exact hws
        exact ih (subscribeToChat st v).1 w hws2
          (subscribeToChat_mem_mono st v w hw)
      · exact ih st w hws hw

theorem subscribeToChat_mem_other (st : EngineState) (v w : String)
    (hvw : w ≠ v) :
    w ∈ (subscribeToChat st v).1.active_subscriptions ↔
      w ∈ st.active_subscriptions := by
  unfold subscribeToChat
  split
  · dsimp only
    split
    · exact Iff.rfl
    · simp [List.mem_append, hvw]
  · exact Iff.rfl

theorem resubscribeLoop2_mem :
    ∀ (items : List (String × StreamEvent)) (st : EngineState),
    st.ws_connected = true → (items.map Prod.fst).Nodup → ∀ w : String,
    (w ∈ (resubscribeLoop2 st items).1.active_subscriptions ↔
      (w ∈ st.active_subscriptions ∨
        (match items.find? (fun p => p.1 == w) with
         | some p => eligible p.2 = true
         | none => False))) := by
  intro items
  induction items with
  | nil =>
    intro st _ _ w
    show w ∈ st.active_subscriptions ↔ (w ∈ st.active_subscriptions ∨ False)
    simp
  | cons pr rest ih =>
    intro st hws hnd w
    rcases pr with ⟨v, e⟩
    rw [List.map_cons, List.nodup_cons] at hnd
    have hstepOnly : subsOnly st (if eligible e && !(decide (v ∈ st.active_subscriptions)) then
        subscribeToChat st v else (st, ([] : List Action))).1 := by
      split
      · exact subscribeToChat_subsOnly st v
      · exact subsOnly_refl st
    have hws1 : (if eligible e && !(decide (v ∈ st.active_subscriptions)) then
        subscribeToChat st v else (st, ([] : List Action))).1.ws_connected = true := by
      rw [subsOnly_ws hstepOnly]
      exact hws
    have hmain := ih _ hws1 hnd.2 w
    show w ∈ (resubscribeLoop2 (if eligible e && !(decide (v ∈ st.active_subscriptions)) then
        subscribeToChat st v else (st, ([] : List Action))).1 rest).1.active_subscriptions ↔ _
    rw [hmain]
    by_cases hvw : v = w
    · subst hvw
      have hrest : rest.find? (fun p => p.1 == v) = none := by
        rw [List.find?_eq_none]
        intro p hp
        simp only [beq_iff_eq]
        intro hpk
        exact hnd.1 (hpk ▸ List.mem_map.mpr ⟨p, hp, rfl⟩)
      have hcons : List.find? (fun p : String × StreamEvent => p.1 == v)
          ((v, e) :: rest) = some (v, e) := by
        rw [List.find?_cons_of_pos]
        simp
      simp only [hrest, hcons, or_false]
      cases hel : eligible e with
      | true =>
        by_cases hv : v ∈ st.active_subscriptions
        · rw [if_neg (by simp [hel, hv])]
          simp [hv, hel]
        · rw [if_pos (by simp [hel, hv])]
          unfold subscribeToChat
          rw [if_pos hws, if_neg hv]
          simp [hel]
      | false =>
        rw [if_neg (by simp [hel])]
        simp [hel]
    · have hcons : List.find? (fun p : String × StreamEvent => p.1 == w)
          ((v, e) :: rest) = rest.find? (fun p => p.1 == w) := by
        rw [List.find?_cons_of_neg]
        simp [hvw]
      rw [hcons]
      have hother : w ∈ (if eligible e && !(decide (v ∈ st.active_subscriptions)) then
          subscribeToChat st v else (st, ([] : List Action))).1.active_subscriptions ↔
          w ∈ st.active_subscriptions := by
        split
        · exact subscribeToChat_mem_other st v w (fun h => hvw h.symm)
        · exact Iff.rfl
      rw [hother]

/-! ## Removed-channel cleanup lemmas -/

theorem cleanupLoop_ctl :
    ∀ (toRemove : List String) (st : EngineState),
    (cleanupLoop st toRemove).1.ws_connected = st.ws_connected ∧
    (cleanupLoop st toRemove).1.running = st.running := by
  intro toRemove
  induction toRemove with
  | nil => intro st; exact ⟨rfl, rfl⟩
  | cons v rest ih =>
    intro st
    unfold cleanupLoop
    dsimp only
    constructor
    · rw [(ih _).1]
      split
      · rw [subsOnly_ws (unsubscribeFromChat_subsOnly _ v)]
      · rfl
    · rw [(ih _).2]
      split
      · rw [subsOnly_running (unsubscribeFromChat_subsOnly _ v)]
      · rfl

theorem cleanupLoop_mem :
    ∀ (toRemove : List String) (st : EngineState),
    st.ws_connected = true → st.running = true → ∀ w : String,
    (w ∈ (cleanupLoop st toRemove).1.active_subscriptions ↔
      (w ∈ st.active_subscriptions ∧ w ∉ toRemove)) := by
  intro toRemove
  induction toRemove with
  | nil =>
    intro st _ _ w
    show w ∈ st.active_subscriptions ↔ (w ∈ st.active_subscriptions ∧ w ∉ ([] : List String))
    simp
  | cons v rest ih =>
    intro st hws hrun w
    unfold cleanupLoop
    dsimp only
    set st1 : EngineState :=
      { st with current_streams := st.current_streams.map (fun m => snapErase m v) }
      with hst1
    have hws1 : st1.ws_connected = true := hws
    have hrun1 : st1.running = true := hrun
    have hstep : ∀ u : String,
        u ∈ (if decide (v ∈ st1.active_subscriptions) && st1.running then
          unsubscribeFromChat st1 v else (st1, ([] : List Action))).1.active_subscriptions ↔
        (u ∈ st.active_subscriptions ∧ u ≠ v) := by
      intro u
      by_cases hv : v ∈ st1.active_subscriptions
      · rw [if_pos (by simp [hv, hrun])]
        rw [unsubscribeFromChat_mem st1 v hws1 u]
      · rw [if_neg (by simp [hv])]
        constructor
        · intro hu
          refine ⟨hu, ?_⟩
          rintro rfl
          exact hv hu
        · rintro ⟨hu, _⟩
          exact hu
    have hwsStep : (if decide (v ∈ st1.active_subscriptions) && st1.running then
        unsubscribeFromChat st1 v else (st1, ([] : List Action))).1.ws_connected = true := by
      split
      · rw [subsOnly_ws (unsubscribeFromChat_subsOnly st1 v)]
        exact hws1
      · exact hws1
    have hrunStep : (if decide (v ∈ st1.active_subscriptions) && st1.running then
        unsubscribeFromChat st1 v else (st1, ([] : List Action))).1.running = true := by
      split
      · rw [subsOnly_running (unsubscribeFromChat_subsOnly st1 v)]
        exact hrun1
      · exact hrun1
    rw [ih _ hwsStep hrunStep w, hstep w]
    constructor
    · rintro ⟨⟨hw, hne⟩, hnr⟩
      refine ⟨hw, ?_⟩
      intro hmem
      rcases List.mem_cons.mp hmem with rfl | hmem2
      · exact hne rfl
      · exact hnr hmem2
    · rintro ⟨hw, hn⟩
      exact ⟨⟨hw, fun he => hn (he ▸ List.mem_cons_self v rest)⟩,
        fun hmem2 => hn (List.mem_cons_of_mem v hmem2)⟩

theorem cleanupLoop_cur :
    ∀ (toRemove : List String) (st : EngineState),
    (cleanupLoop st toRemove).1.current_streams =
      st.current_streams.map (fun m =>
        m.filter (fun p => decide (p.1 ∉ toRemove))) := by
  intro toRemove
  induction toRemove with
  | nil =>
    intro st
    show st.current_streams = _
    rcases st.current_streams with _ | m
    · rfl
    · simp [List.filter_eq_self]
  | cons v rest ih =>
    intro st
    unfold cleanupLoop
    dsimp only
    set st1 : EngineState :=
      { st with current_streams := st.current_streams.map (fun m => snapErase m v) }
      with hst1
    have hcur1 : (if decide (v ∈ st1.active_subscriptions) && st1.running then
        unsubscribeFromChat st1 v else (st1, ([] : List Action))).1.current_streams =
        st1.current_streams := by
      split
      · rw [subsOnly_cur (unsubscribeFromChat_subsOnly st1 v)]
      · rfl
    have hcongr : ∀ st2 : EngineState,
        st2.current_streams = st1.current_streams →
        (cleanupLoop st2 rest).1.current_streams =
          st1.current_streams.map (fun m =>
            m.filter (fun p => decide (p.1 ∉ rest))) := by
      intro st2 h2
      rw [ih st2, h2]
    rw [hcongr _ hcur1, hst1]
    rcases st.current_streams with _ | m
    · rfl
    · show some ((snapErase m v).filter (fun p => decide (p.1 ∉ rest))) = _
      unfold snapErase
      rw [List.filter_filter]
      congr 1
      apply List.filter_congr
      intro p _
      by_cases h1 : p.1 = v
      · simp [h1]
      · by_cases h2 : p.1 ∈ rest
        · simp [h1, h2]
        · simp [h1, h2]

/-! ## Invariant preservation -/

theorem find?_congr_local {α : Type} (p q : α → Bool) (h : ∀ a, p a = q a) :
    ∀ l : List α, l.find? p = l.find? q := by
  intro l
  induction l with
  | nil => rfl
  | cons a t ih =>
    rw [List.find?_cons, List.find?_cons, h a]
    cases q a
    · exact ih
    · rfl

theorem lookupA_filter_notin {α : Type} (m : List (String × α)) (R : List String)
    (w : String) :
    lookupA (m.filter (fun p => decide (p.1 ∉ R))) w =
      (if w ∈ R then none else lookupA m w) := by
  unfold lookupA
  rw [List.find?_filter]
  by_cases hw : w ∈ R
  · rw [if_pos hw]
    have hnone : m.find? (fun a => decide (a.1 ∉ R) ∧ a.1 == w) = none := by
      rw [List.find?_eq_none]
      intro p _
      simp only [decide_eq_true_eq, Bool.and_eq_true, not_and]
      rintro h1 h2
      simp only [beq_iff_eq] at h2
      exact absurd (h2 ▸ hw) h1
    rw [hnone]
    rfl
  · rw [if_neg hw]
    have harg : ∀ a : String × α,
        (decide (decide (a.1 ∉ R) = true ∧ (a.1 == w) = true)) = (a.1 == w) := by
      intro a
      by_cases ha : a.1 = w
      · simp [ha, hw]
      · simp [ha]
    have hcong := find?_congr_local
      (fun a : String × α => decide (decide (a.1 ∉ R) = true ∧ (a.1 == w) = true))
      (fun a : String × α => a.1 == w) harg m
    rw [← hcong]

theorem eligible_congr {a b : StreamEvent} (hs : a.status = b.status)
    (hm : a.members_only = b.members_only) : eligible a = eligible b := by
  unfold eligible
  rw [hs, hm]

theorem eligible_false_mo {e : StreamEvent}
    (hs : e.status = "live" ∨ e.status = "upcoming") (h : eligible e = false) :
    e.members_only = true := by
  unfold eligible at h
  have hs2 : (e.status == "live" || e.status == "upcoming") = true := by
    rcases hs with h1 | h1 <;> rw [h1] <;> decide
  rw [hs2, Bool.true_and] at h
  cases hm : e.members_only
  · rw [hm] at h
    exact absurd h (by decide)
  · rfl

theorem statusTransition_false_elim {prev : Option Snapshot} {w : String}
    {e : StreamEvent} (h : statusTransition prev w e = false) :
    ∃ p old, prev = some p ∧ lookupA p w = some old ∧ old.status = e.status := by
  rcases prev with _ | p
  · simp [statusTransition] at h
  · rcases hl : lookupA p w with _ | old
    · simp [statusTransition, hl] at h
    · simp only [statusTransition, hl] at h
      refine ⟨p, old, rfl, hl, ?_⟩
      simpa using h

theorem lookupA_buildDict_elim {data : List StreamEvent} {w : String}
    {e : StreamEvent}
    (h : lookupA (buildDict data (fun x => x.video_id)) w = some e) :
    e ∈ data ∧ e.video_id = w := by
  rw [lookupA_buildDict] at h
  constructor
  · exact List.mem_reverse.mp (List.mem_of_find?_eq_some h)
  · have := List.find?_some h
    simpa using this

theorem updateStreams_preserves_invariant (tracked : List String) (now : Int)
    (st : EngineState) (data : List StreamEvent) (htr : tracked ≠ [])
    (hws : st.ws_connected = true) (hinv : subsInvariant st)
    (hstatus : ∀ e ∈ data, e.status = "live" ∨ e.status = "upcoming")
    (hmo : ∀ e ∈ data, ∀ old : StreamEvent,
      snapLookup st.current_streams e.video_id = some old →
      old.status = e.status → old.members_only = e.members_only) :
    subsInvariant (updateStreams tracked now st (some data)).1 := by
  intro w
  rw [updateStreams_mem tracked now st data htr hws w]
  have hcur := updateStreams_cur tracked now st data htr
  rw [show snapLookup (updateStreams tracked now st (some data)).1.current_streams w =
      lookupA (buildDict data (fun x => x.video_id)) w by rw [hcur]; rfl]
  rcases hlk : lookupA (buildDict data (fun x => x.video_id)) w with _ | e
  · show (w ∈ st.active_subscriptions ∧
        (match st.current_streams with
         | none => True
         | some old => w ∉ old.map Prod.fst)) ↔
      ∃ e, (none : Option StreamEvent) = some e ∧ eligible e = true
    constructor
    · rintro ⟨hw, hc⟩
      rcases (hinv w).mp hw with ⟨e0, he0, _⟩
      rcases hcs : st.current_streams with _ | old
      · rw [hcs] at he0
        exact Option.noConfusion he0
      · rw [hcs] at he0 hc
        exact absurd (mem_keys_of_lookupA old w e0 he0) hc
    · rintro ⟨e0, he0, _⟩
      exact Option.noConfusion he0
  · have hfacts := lookupA_buildDict_elim hlk
    have hstat := hstatus e hfacts.1
    show itemMemAfter st.current_streams w e (w ∈ st.active_subscriptions) ↔
      ∃ e0, (some e : Option StreamEvent) = some e0 ∧ eligible e0 = true
    have hiff : (∃ e0, (some e : Option StreamEvent) = some e0 ∧
        eligible e0 = true) ↔ eligible e = true := by
      constructor
      · rintro ⟨e0, he0, hel0⟩
        obtain rfl := Option.some.inj he0
        exact hel0
      · intro h
        exact ⟨e, rfl, h⟩
    rw [hiff]
    unfold itemMemAfter
    cases ht : statusTransition st.current_streams w e with
    | true =>
      rw [if_pos rfl]
      cases hel : eligible e with
      | true =>
        rw [if_pos rfl]
        simp
      | false =>
        rw [if_neg Bool.false_ne_true]
        rw [if_pos (eligible_false_mo hstat hel)]
        simp
    | false =>
      rw [if_neg Bool.false_ne_true]
      rcases statusTransition_false_elim ht with ⟨p, old, hp, hl, hseq⟩
      have hmoeq := hmo e hfacts.1 old
        (by rw [hfacts.2, hp]; exact hl) hseq
      have hiv := hinv w
      rw [hp] at hiv
      rw [hiv]
      rw [show snapLookup (some p) w = lookupA p w from rfl, hl]
      constructor
      · rintro ⟨e0, he0, hel0⟩
        obtain rfl := Option.some.inj he0
        rw [← eligible_congr hseq hmoeq]
        exact hel0
      · intro he
        exact ⟨old, rfl, by rw [eligible_congr hseq hmoeq]; exact he⟩

theorem cleanup_preserves_invariant (removed : List String) (st : EngineState)
    (hws : st.ws_connected = true) (hrun : st.running = true)
    (hinv : subsInvariant st) :
    subsInvariant (cleanupRemovedChannels removed st).1 := by
  rcases hcs : st.current_streams with _ | cur
  · have hred : cleanupRemovedChannels removed st = (st, []) := by
      unfold cleanupRemovedChannels
      rw [hcs]
    rw [hred]
    exact hinv
  · have hred : cleanupRemovedChannels removed st =
        cleanupLoop st ((cur.filter (fun p =>
          removed.contains p.2.channel_id)).map (fun p => p.1)) := by
      unfold cleanupRemovedChannels
      rw [hcs]
    rw [hred]
    intro w
    set R := ((cur.filter (fun p => removed.contains p.2.channel_id)).map
      (fun p => p.1)) with hR
    rw [cleanupLoop_mem R st hws hrun w]
    have hcur3 : (cleanupLoop st R).1.current_streams =
        some (cur.filter (fun p => decide (p.1 ∉ R))) := by
      rw [cleanupLoop_cur R st, hcs]
      rfl
    rw [show snapLookup (cleanupLoop st R).1.current_streams w =
        lookupA (cur.filter (fun p => decide (p.1 ∉ R))) w by
      rw [hcur3]; rfl]
    rw [lookupA_filter_notin cur R w]
    have hiv : w ∈ st.active_subscriptions ↔
        ∃ e, lookupA cur w = some e ∧ eligible e = true := by
      have h0 := hinv w
      rw [hcs] at h0
      exact h0
    by_cases hw : w ∈ R
    · rw [if_pos hw]
      constructor
      · rintro ⟨_, hcontra⟩
        exact absurd hw hcontra
      · rintro ⟨e0, he0, _⟩
        exact Option.noConfusion he0
    · rw [if_neg hw]
      constructor
      · rintro ⟨hmem, _⟩
        exact hiv.mp hmem
      · intro hex
        exact ⟨hiv.mpr hex, hw⟩

theorem resubscribe_restores_invariant (st : EngineState)
    (hws : st.ws_connected = true) (hnd : snapKeysNodup st)
    (hsub : ∀ v ∈ st.active_subscriptions,
      ∃ e, snapLookup st.current_streams v = some e ∧ eligible e = true) :
    subsInvariant (resubscribeToStreams st).1 := by
  unfold resubscribeToStreams
  have hall : ∀ v ∈ st.active_subscriptions, v ∈ st.active_subscriptions :=
    fun v hv => hv
  rw [resubscribeLoop1_already st.active_subscriptions st hws hall]
  dsimp only
  rcases hcs : st.current_streams with _ | cur
  · intro w
    rw [hcs]
    constructor
    · intro hw
      rcases hsub w hw with ⟨e0, he0, _⟩
      rw [hcs] at he0
      exact absurd he0 (by intro h; exact Option.noConfusion h)
    · rintro ⟨e0, he0, _⟩
      exact Option.noConfusion he0
  · have hndcur : (cur.map Prod.fst).Nodup := by
      unfold snapKeysNodup at hnd
      rw [hcs] at hnd
      exact hnd
    intro w
    rw [show (resubscribeLoop2 st cur).1.current_streams = some cur by
      rw [subsOnly_cur (resubscribeLoop2_subsOnly cur st), hcs]]
    rw [resubscribeLoop2_mem cur st hws hndcur w]
    rcases hf : cur.find? (fun p => p.1 == w) with _ | pr
    · have hlk : lookupA cur w = none := by
        unfold lookupA
        rw [hf]
        rfl
      simp only [hf]
      constructor
      · rintro (hw | hfalse)
        · rcases hsub w hw with ⟨e0, he0, _⟩
          rw [hcs] at he0
          show ∃ e, snapLookup (some cur) w = some e ∧ eligible e = true
          exact ⟨e0, he0, by
            rcases hsub w hw with ⟨e1, he1, hel1⟩
            rw [hcs] at he1
            have : e1 = e0 := Option.some.inj (he1.symm.trans he0)
            subst this
            exact hel1⟩
        · exact absurd hfalse (by intro h; exact h)
      · rintro ⟨e0, he0, _⟩
        have : lookupA cur w = some e0 := he0
        rw [hlk] at this
        exact Option.noConfusion this
    · have hlk : lookupA cur w = some pr.2 := by
        unfold lookupA
        rw [hf]
        rfl
      simp only [hf]
      constructor
      · rintro (hw | hel)
        · rcases hsub w hw with ⟨e0, he0, hel0⟩
          rw [hcs] at he0
          exact ⟨e0, he0, hel0⟩
        · exact ⟨pr.2, hlk, hel⟩
      · rintro ⟨e0, he0, hel0⟩
        have : e0 = pr.2 := by
          have h2 : lookupA cur w = some e0 := he0
          rw [hlk] at h2
          exact (Option.some.inj h2).symm
        subst this
        exact Or.inr hel0

/-! ## Rate-limit delay bounds -/

theorem foldl_delayStep_bounds :
    ∀ (l : List Bool) (d : ℚ), 1 / 2 ≤ d → d ≤ 5 →
    1 / 2 ≤ l.foldl delayStep d ∧ l.foldl delayStep d ≤ 5 := by
  intro l
  induction l with
  | nil => intro d h1 h2; exact ⟨h1, h2⟩
  | cons r rest ih =>
    intro d h1 h2
    apply ih
    · unfold delayStep
      cases r
      · simpa using h1
      · simp only [if_true]
        apply le_min
        · linarith
        · norm_num
    · unfold delayStep
      cases r
      · simpa using h2
      · simp only [if_true]
        exact min_le_right _ _

/-! # Claim theorems -/

/-- C5 counterexample: on a 200 response whose body decodes to zero streams,
`get_live_streams` returns `None`, not the empty list the claim says
represents "legitimately zero streams". -/
theorem empty_body_collapsed_counterexample :
    (getLiveStreams ["UCch1"] (ApiResponse.ok 200 [])).1 = none ∧
    (getLiveStreams ["UCch1"] (ApiResponse.ok 200 [])).1 ≠ some [] := by
  constructor
  · rfl
  · intro h
    exact Option.noConfusion h

/-- C5 (amended): `get_live_streams` short-circuits an empty channel set to
`None` without a network call, returns `None` on any non-200 status and on
transport failure, but ALSO collapses a 200 response with an empty body to
`None` — it never returns an empty list, so the engine cannot distinguish
"no update this cycle" from "legitimately zero streams" and skips the diff
in both cases; a non-empty 200 body is returned as-is. -/
theorem getLiveStreams_semantics_amended :
    (∀ resp : ApiResponse, getLiveStreams [] resp = (none, false)) ∧
    (∀ (ids : List String) (s : Nat) (body : List StreamEvent), s ≠ 200 →
      (getLiveStreams ids (ApiResponse.ok s body)).1 = none) ∧
    (∀ ids : List String, (getLiveStreams ids ApiResponse.failure).1 = none) ∧
    (∀ (ids : List String) (resp : ApiResponse),
      (getLiveStreams ids resp).1 ≠ some []) ∧
    (∀ (i : String) (is2 : List String) (body : List StreamEvent), body ≠ [] →
      (getLiveStreams (i :: is2) (ApiResponse.ok 200 body)).1 = some body) ∧
    (∀ (tracked : List String) (now : Int) (st : EngineState),
      updateStreams tracked now st none = (st, [])) := by
  refine ⟨?_, ?_, ?_, ?_, ?_, ?_⟩
  · intro resp
    rfl
  · intro ids s body hs
    unfold getLiveStreams
    by_cases hids : ids.isEmpty
    · rw [if_pos hids]
    · rw [if_neg hids]
      dsimp only
      rw [if_neg hs]
  · intro ids
    unfold getLiveStreams
    by_cases hids : ids.isEmpty
    · rw [if_pos hids]
    · rw [if_neg hids]
  · intro ids resp
    unfold getLiveStreams
    by_cases hids : ids.isEmpty
    · rw [if_pos hids]
      intro h
      exact Option.noConfusion h
    · rw [if_neg hids]
      rcases resp with ⟨s, body⟩ | _
      · dsimp only
        by_cases hs : s = 200
        · rw [if_pos hs]
          by_cases hb : body.isEmpty
          · rw [if_pos hb]
            intro h
            exact Option.noConfusion h
          · rw [if_neg hb]
            intro h
            have hbody := Option.some.inj h
            rw [hbody] at hb
            exact hb rfl
        · rw [if_neg hs]
          intro h
          exact Option.noConfusion h
      · intro h
        exact Option.noConfusion h
  · intro i is2 body hb
    unfold getLiveStreams
    rw [if_neg (by simp)]
    dsimp only
    rw [if_pos rfl, if_neg (by simpa using hb)]
  · intro tracked now st
    unfold updateStreams
    by_cases htr : tracked.isEmpty
    · rw [if_pos htr]
    · rw [if_neg htr]

/-- C5 witness: the amended semantics applied at concrete inputs. -/
theorem getLiveStreams_semantics_amended_witness :
    (getLiveStreams [] (ApiResponse.ok 200 [mkStream "A" "live" false none])).1 = none ∧
    (getLiveStreams ["UCch1"] (ApiResponse.ok 429 [])).1 = none ∧
    (getLiveStreams ["UCch1"] (ApiResponse.ok 200
      [mkStream "A" "live" false none])).1 = some [mkStream "A" "live" false none] := by
  refine ⟨?_, ?_, ?_⟩
  · rw [getLiveStreams_semantics_amended.1 (ApiResponse.ok 200 [mkStream "A" "live" false none])]
  · exact getLiveStreams_semantics_amended.2.1 ["UCch1"] 429 [] (by decide)
  · exact getLiveStreams_semantics_amended.2.2.2.2.1 "UCch1" [] [mkStream "A" "live" false none]
      (by intro h; exact List.noConfusion h)

/-- C6 counterexample: a handle lookup that succeeds before `update_cache`
returns nothing afterwards, because the `channels` setter resets the
handle index to an empty dict. -/
theorem handle_index_wiped_counterexample :
    getChannelByHandle
      { emptyCache with channel_by_handle := [("@ha", mkChannel "ida" "na" "@ha")] }
      "@ha" = some (mkChannel "ida" "na" "@ha") ∧
    getChannelByHandle
      ((updateCache
        { emptyCache with channel_by_handle := [("@ha", mkChannel "ida" "na" "@ha")] }
        [mkChannel "idb" "nb" "@hb"] 7).1)
      "@ha" = none := by
  constructor
  · rfl
  · rfl

/-- C6 (amended): `update_cache` with a non-empty record list rebuilds the
by-id and by-name indices and RESETS the handle index to empty, so every
handle lookup returns `None` afterwards — handle lookups do NOT persist
across a replace; `update_cache` with an empty list is a no-op returning
false, leaving all indices (including handles) untouched. -/
theorem updateCache_handle_reset_amended (st : ChannelCacheState)
    (channels : List ChannelRecord) (now : Int) (h : String)
    (hne : channels ≠ []) :
    getChannelByHandle (updateCache st channels now).1 h = none ∧
    updateCache st [] now = (st, false) := by
  constructor
  · unfold updateCache
    rw [if_neg (by simpa [List.isEmpty_eq_false] using hne)]
    rfl
  · rfl

/-- C6 witness: the amended statement applied at a concrete cache state. -/
theorem updateCache_handle_reset_amended_witness :
    getChannelByHandle
      ((updateCache
        { emptyCache with channel_by_handle := [("@hx", mkChannel "idx" "nx" "@hx")] }
        [mkChannel "idy" "ny" "@hy"] 3).1) "@hx" = none ∧
    updateCache
      { emptyCache with channel_by_handle := [("@hx", mkChannel "idx" "nx" "@hx")] }
      [] 3 =
      ({ emptyCache with channel_by_handle := [("@hx", mkChannel "idx" "nx" "@hx")] },
        false) :=
  updateCache_handle_reset_amended
    { emptyCache with channel_by_handle := [("@hx", mkChannel "idx" "nx" "@hx")] }
    [mkChannel "idy" "ny" "@hy"] 3 "@hx" (by intro h; exact List.noConfusion h)

/-- C9 counterexample: `update_cache` with an empty record list is a no-op
(returns false), so a previously indexed id still resolves afterwards even
though it does not occur in the (empty) replacement list — the round-trip
claim fails for the empty list. -/
theorem byId_empty_replace_counterexample :
    updateCache (setChannels emptyCache [mkChannel "ida" "na" "@ha"]) [] 7 =
      (setChannels emptyCache [mkChannel "ida" "na" "@ha"], false) ∧
    getChannelById
      ((updateCache (setChannels emptyCache [mkChannel "ida" "na" "@ha"]) [] 7).1)
      "ida" = some (mkChannel "ida" "na" "@ha") ∧
    "ida" ∉ ([] : List ChannelRecord).map (fun r => r.id) := by
  refine ⟨rfl, rfl, ?_⟩
  intro h
  exact List.not_mem_nil _ h

/-- C9 (amended): for every NON-EMPTY record list, `update_cache` followed
by `get_channel_by_id` returns, for every id occurring in the list, the last
record of the list bearing that id (a record of the list whose id matches),
and returns `None` for every id not occurring; for the empty list
`update_cache` is a no-op returning false and the old indices survive. -/
theorem updateCache_byId_roundtrip_amended (st : ChannelCacheState)
    (records : List ChannelRecord) (now : Int) (i : String)
    (hne : records ≠ []) :
    getChannelById (updateCache st records now).1 i =
      records.reverse.find? (fun r => r.id == i) ∧
    ((∃ r, getChannelById (updateCache st records now).1 i = some r ∧
        r ∈ records ∧ r.id = i) ↔ i ∈ records.map (fun r => r.id)) ∧
    (i ∉ records.map (fun r => r.id) →
      getChannelById (updateCache st records now).1 i = none) := by
  have hmain : getChannelById (updateCache st records now).1 i =
      records.reverse.find? (fun r => r.id == i) := by
    unfold updateCache
    rw [if_neg (by simpa [List.isEmpty_eq_false] using hne)]
    unfold saveCache setChannels getChannelById
    exact lookupA_buildDict records (fun c => c.id) i
  refine ⟨hmain, ?_, ?_⟩
  · constructor
    · rintro ⟨r, _, hrmem, hrid⟩
      exact List.mem_map.mpr ⟨r, hrmem, hrid⟩
    · intro hmem
      rcases List.mem_map.mp hmem with ⟨r0, hr0, hr0id⟩
      rcases hf : records.reverse.find? (fun r => r.id == i) with _ | r
      · rw [List.find?_eq_none] at hf
        exact absurd (by simpa using hr0id)
          (by simpa using hf r0 (List.mem_reverse.mpr hr0))
      · refine ⟨r, by rw [hmain, hf], List.mem_reverse.mp (List.mem_of_find?_eq_some hf), ?_⟩
        have := List.find?_some hf
        simpa using this
  · intro hnotin
    rw [hmain, List.find?_eq_none]
    intro r hr
    simp only [beq_iff_eq]
    intro hrid
    exact hnotin (List.mem_map.mpr ⟨r, List.mem_reverse.mp hr, hrid⟩)

/-- C9 witness: the amended round-trip applied at a concrete record list. -/
theorem updateCache_byId_roundtrip_amended_witness :
    getChannelById (updateCache emptyCache [mkChannel "ida" "na" "@ha"] 7).1 "ida" =
      ([mkChannel "ida" "na" "@ha"] : List ChannelRecord).reverse.find?
        (fun r => r.id == "ida") ∧
    ((∃ r, getChannelById (updateCache emptyCache [mkChannel "ida" "na" "@ha"] 7).1
        "ida" = some r ∧ r ∈ [mkChannel "ida" "na" "@ha"] ∧ r.id = "ida") ↔
      "ida" ∈ ([mkChannel "ida" "na" "@ha"] : List ChannelRecord).map (fun r => r.id)) ∧
    ("ida" ∉ ([mkChannel "ida" "na" "@ha"] : List ChannelRecord).map (fun r => r.id) →
      getChannelById (updateCache emptyCache [mkChannel "ida" "na" "@ha"] 7).1
        "ida" = none) :=
  updateCache_byId_roundtrip_amended emptyCache [mkChannel "ida" "na" "@ha"] 7 "ida"
    (by intro h; exact List.noConfusion h)

/-- C8 counterexample: the "at least double over three consecutive 429s"
part fails near the cap: after four 429 responses the delay is 81/32 =
2.53125 s; a further streak of three 429s leaves the delay in effect at its
third attempt at the 5-second cap, and 5 < 2 * 2.53125 = 5.0625. -/
theorem backoff_doubling_counterexample :
    delayAfter [true, true, true, true] = 81 / 32 ∧
    delayStep (delayStep (delayAfter [true, true, true, true]) true) true <
      2 * delayAfter [true, true, true, true] := by
  have h4 : delayAfter [true, true, true, true] = 81 / 32 := by
    show List.foldl delayStep (1 / 2) [true, true, true, true] = 81 / 32
    norm_num [delayStep, min_def]
  refine ⟨h4, ?_⟩
  rw [h4]
  norm_num [delayStep, min_def]

/-- C8 (amended): over any three consecutive 429 responses during a bulk
fetch the delay in effect at the third attempt is at least the minimum of
double the delay at the first attempt and the 5-second cap (so "at least
double" holds whenever the cap does not bind, in particular 1.125 ≥ 2 x 0.5
for a streak starting at the fetch's initial delay); the delay always stays
within [0.5, 5.0] no matter how many 429 responses occur. -/
theorem backoff_bounds_amended (responses : List Bool) :
    min (2 * delayAfter responses) 5 ≤
      delayStep (delayStep (delayAfter responses) true) true ∧
    (1 / 2 : ℚ) ≤ delayAfter responses ∧ delayAfter responses ≤ 5 ∧
    2 * delayAfter [] ≤ delayStep (delayStep (delayAfter []) true) true := by
  have hb := foldl_delayStep_bounds responses (1 / 2) (le_refl _) (by norm_num)
  have h1 : (1 / 2 : ℚ) ≤ delayAfter responses := hb.1
  have h2 : delayAfter responses ≤ 5 := hb.2
  have hlast : 2 * delayAfter [] ≤ delayStep (delayStep (delayAfter []) true) true := by
    have h0 : delayAfter [] = 1 / 2 := rfl
    rw [h0]
    norm_num [delayStep, min_def]
  refine ⟨?_, h1, h2, hlast⟩
  rcases le_or_lt (2 * delayAfter responses) 5 with hc | hc
  · rw [min_eq_left hc]
    have hstep1 : delayStep (delayAfter responses) true =
        delayAfter responses * (3 / 2) := by
      unfold delayStep
      rw [if_pos rfl]
      apply min_eq_left
      linarith
    rw [hstep1]
    have hstep2 : delayStep (delayAfter responses * (3 / 2)) true =
        min (delayAfter responses * (3 / 2) * (3 / 2)) 5 := by
      unfold delayStep
      rw [if_pos rfl]
    rw [hstep2]
    apply le_min
    · linarith
    · linarith
  · rw [min_eq_right (le_of_lt hc)]
    unfold delayStep
    rw [if_pos rfl, if_pos rfl]
    apply le_min
    · have hmin : (10 / 3 : ℚ) ≤ min (delayAfter responses * (3 / 2)) 5 := by
        apply le_min
        · linarith
        · norm_num
      linarith
    · exact le_refl 5

/-- C4 counterexample: with previous snapshot {A: live} and an API response
of 200 with zero streams, `get_live_streams` collapses the empty list to
`None`, the cycle is skipped entirely, and A is neither treated as ended nor
unsubscribed — the state (including the old snapshot and the subscription)
is unchanged and no unsubscribe frame is sent. -/
theorem empty_poll_counterexample :
    pollCycle ["UCch1"] 0
      ⟨some [("A", mkStream "A" "live" false none)], ["A"], true, true⟩
      (ApiResponse.ok 200 []) =
      (⟨some [("A", mkStream "A" "live" false none)], ["A"], true, true⟩, []) ∧
    unsubFramesOf (pollCycle ["UCch1"] 0
      ⟨some [("A", mkStream "A" "live" false none)], ["A"], true, true⟩
      (ApiResponse.ok 200 [])).2 = [] := by
  constructor
  · rfl
  · rfl

/-- C4 (amended): with previous snapshot {A: live} and new snapshot
{A: live, B: upcoming}, exactly one transition event fires (for B, none for
A) provided B is not scheduled more than 24 hours out, and B is subscribed;
if B is more than 24 hours out the transition is suppressed and nothing is
emitted.  A previous-snapshot stream is treated as ended and unsubscribed
only when the NEW snapshot is non-empty and lacks it; a 200 response with
zero streams is collapsed to null by the fetch, so that cycle is skipped
and nothing is unsubscribed. -/
theorem diff_correctness_amended :
    emittedOf (updateStreams ["UCch1"] 0
      ⟨some [("A", mkStream "A" "live" false none)], ["A"], true, true⟩
      (some [mkStream "A" "live" false none,
             mkStream "B" "upcoming" false (some 1000)])).2 =
      [mkStream "B" "upcoming" false (some 1000)] ∧
    subFramesOf (updateStreams ["UCch1"] 0
      ⟨some [("A", mkStream "A" "live" false none)], ["A"], true, true⟩
      (some [mkStream "A" "live" false none,
             mkStream "B" "upcoming" false (some 1000)])).2 = ["B"] ∧
    unsubFramesOf (updateStreams ["UCch1"] 0
      ⟨some [("A", mkStream "A" "live" false none)], ["A"], true, true⟩
      (some [mkStream "A" "live" false none,
             mkStream "B" "upcoming" false (some 1000)])).2 = [] ∧
    emittedOf (updateStreams ["UCch1"] 0
      ⟨some [("A", mkStream "A" "live" false none)], ["A"], true, true⟩
      (some [mkStream "A" "live" false none,
             mkStream "B" "upcoming" false (some 200000)])).2 = [] ∧
    pollCycle ["UCch1"] 0
      ⟨some [("A", mkStream "A" "live" false none)], ["A"], true, true⟩
      (ApiResponse.ok 200 []) =
      (⟨some [("A", mkStream "A" "live" false none)], ["A"], true, true⟩, []) ∧
    updateStreams ["UCch1"] 0
      ⟨some [("A", mkStream "A" "live" false none)], ["A"], true, true⟩
      (some [mkStream "B" "upcoming" false (some 1000)]) =
      (⟨some [("B", mkStream "B" "upcoming" false (some 1000))], ["B"], true, true⟩,
       [Action.emit (mkStream "B" "upcoming" false (some 1000)),
        Action.subFrame "B", Action.unsubFrame "A"]) := by
  refine ⟨rfl, rfl, rfl, rfl, rfl, rfl⟩

/-- C3 counterexample: a stream that flips from live (not members-only,
subscribed) to live (members-only) produces ZERO unsubscribes (and no
subscribe): the poll cycle leaves the subscription set and the trace
untouched because the members-only unsubscribe only runs inside the
status-transition branch, and the status did not change. -/
theorem members_only_flip_counterexample :
    updateStreams ["UCch1"] 0
      ⟨some [("A", mkStream "A" "live" false none)], ["A"], true, true⟩
      (some [mkStream "A" "live" true none]) =
      (⟨some [("A", mkStream "A" "live" true none)], ["A"], true, true⟩, []) ∧
    (unsubFramesOf (updateStreams ["UCch1"] 0
      ⟨some [("A", mkStream "A" "live" false none)], ["A"], true, true⟩
      (some [mkStream "A" "live" true none])).2).count "A" = 0 := by
  constructor
  · rfl
  · rfl

/-- C3 (amended): a live-to-live members-only flip of a subscribed stream
triggers NO unsubscribe and no subscribe: because the status is unchanged,
the diff loop skips the entry entirely (the members-only unsubscribe is
nested inside the transition branch), so the whole cycle only replaces the
stored snapshot entry and emits nothing. -/
theorem members_only_flip_amended (vid : String) (eOld eNew : StreamEvent)
    (st : EngineState) (t : String) (ts : List String) (now : Int)
    (hvid : eNew.video_id = vid)
    (hsOld : eOld.status = "live") (hsNew : eNew.status = "live")
    (hmoOld : eOld.members_only = false) (hmoNew : eNew.members_only = true)
    (hcur : st.current_streams = some [(vid, eOld)])
    (hsubs : st.active_subscriptions = [vid]) :
    updateStreams (t :: ts) now st (some [eNew]) =
      ({ st with current_streams := some [(vid, eNew)] }, []) := by
  have hsnap : buildDict [eNew] (fun e => e.video_id) = [(vid, eNew)] := by
    unfold buildDict
    rw [List.foldl_cons, List.foldl_nil]
    unfold upsert
    rw [if_neg (by simp)]
    show [] ++ [(eNew.video_id, eNew)] = [(vid, eNew)]
    rw [hvid]
    rfl
  have hlkOld : lookupA [(vid, eOld)] vid = some eOld := by
    unfold lookupA
    rw [List.find?_cons_of_pos _ (by simp)]
    rfl
  have htrans : statusTransition (some [(vid, eOld)]) vid eNew = false := by
    simp only [statusTransition, hlkOld]
    rw [hsOld, hsNew]
    simp
  have hstep : processStreamItem (some [(vid, eOld)]) now st vid eNew = (st, []) := by
    unfold processStreamItem
    rw [if_neg (by rw [htrans]; exact Bool.false_ne_true)]
  have hitems : processItems (some [(vid, eOld)]) now st [(vid, eNew)] = (st, []) := by
    show ((processItems (some [(vid, eOld)]) now
        (processStreamItem (some [(vid, eOld)]) now st vid eNew).1 []).1,
      (processStreamItem (some [(vid, eOld)]) now st vid eNew).2 ++
        (processItems (some [(vid, eOld)]) now
          (processStreamItem (some [(vid, eOld)]) now st vid eNew).1 []).2) = (st, [])
    rw [hstep]
    rfl
  have hlkNew : lookupA [(vid, eNew)] vid = some eNew := by
    unfold lookupA
    rw [List.find?_cons_of_pos _ (by simp)]
    rfl
  have hcond : ((lookupA [(vid, eNew)] vid).isNone &&
      decide (vid ∈ st.active_subscriptions)) = false := by
    rw [hlkNew]
    rfl
  have hended : processEnded [(vid, eNew)] st [vid] = (st, []) := by
    unfold processEnded
    rw [if_neg (by rw [hcond]; exact Bool.false_ne_true)]
    rfl
  have hne : (t :: ts) ≠ ([] : List String) := by
    intro h
    exact List.noConfusion h
  rw [updateStreams_unfold (t :: ts) now st [eNew] hne]
  dsimp only
  rw [hsnap, hcur]
  simp only [hitems, List.map_cons, List.map_nil, hended, List.append_nil]

/-- C3 witness: the amended no-op behaviour applied at a concrete
live-to-live members-only flip. -/
theorem members_only_flip_amended_witness :
    updateStreams ["UCch1"] 0
      ⟨some [("A", mkStream "A" "live" false none)], ["A"], true, true⟩
      (some [mkStream "A" "live" true none]) =
      ({ (⟨some [("A", mkStream "A" "live" false none)], ["A"], true, true⟩ : EngineState) with
          current_streams := some [("A", mkStream "A" "live" true none)] }, []) :=
  members_only_flip_amended "A" (mkStream "A" "live" false none)
    (mkStream "A" "live" true none)
    ⟨some [("A", mkStream "A" "live" false none)], ["A"], true, true⟩
    "UCch1" [] 0 rfl rfl rfl rfl rfl rfl rfl

/-- C2 counterexample: the emission gate is
`previous snapshot exists AND not (upcoming and >24h)`, not the claimed
`not (first poll AND upcoming and >24h)`: a live transition detected on the
very first poll emits nothing, and an upcoming stream more than 24h out
whose transition is detected on a LATER poll also emits nothing. -/
theorem first_poll_suppression_counterexample :
    statusTransition none "A" (mkStream "A" "live" false none) = true ∧
    emittedOf (updateStreams ["UCch1"] 0 ⟨none, [], true, true⟩
      (some [mkStream "A" "live" false none])).2 = [] ∧
    statusTransition (some [("A", mkStream "A" "live" false none)]) "B"
      (mkStream "B" "upcoming" false (some 200000)) = true ∧
    emittedOf (updateStreams ["UCch1"] 0
      ⟨some [("A", mkStream "A" "live" false none)], ["A"], true, true⟩
      (some [mkStream "A" "live" false none,
             mkStream "B" "upcoming" false (some 200000)])).2 = [] := by
  refine ⟨rfl, rfl, rfl, rfl⟩

/-- C2 (amended): the events passed to `onStreamEvent` during a poll cycle
are exactly the new-snapshot entries whose status transitioned AND for which
a previous snapshot existed AND which are not upcoming streams scheduled
more than 24 hours out.  In particular every first-poll transition is
suppressed (not only far-future upcoming ones), and far-future upcoming
transitions are suppressed on every poll (not only the first). -/
theorem emission_rule_amended (t : String) (ts : List String) (now : Int)
    (st : EngineState) (data : List StreamEvent) :
    emittedOf (updateStreams (t :: ts) now st (some data)).2 =
      ((buildDict data (fun e => e.video_id)).filter (fun p =>
        statusTransition st.current_streams p.1 p.2 &&
          (st.current_streams.isSome &&
            (p.2.status != "upcoming" || !(isStreamMoreThan24hAway now p.2))))).map
        Prod.snd :=
  updateStreams_emitted (t :: ts) now st data (by intro h; exact List.noConfusion h)

/-! ## Chat-event reduction -/

theorem handleChatEvent_some (st : EngineState) (cur : Snapshot)
    (event_name : String) (data : ChatPayload)
    (hcur : st.current_streams = some cur) :
    handleChatEvent st event_name data =
      (if data.name.getD "" != "" then
         if pyStrip (ChatMessage.fromSocketMessage
             ((event_name.splitOn "/").headD "") data
             (match lookupA cur ((event_name.splitOn "/").headD "") with
              | some e => e.channel_id
              | none => "")).message == "" then (st, none)
         else if (ChatMessage.fromSocketMessage
             ((event_name.splitOn "/").headD "") data
             (match lookupA cur ((event_name.splitOn "/").headD "") with
              | some e => e.channel_id
              | none => "")).is_vtuber then
           (st, some (CallbackCall.vtuberCb (ChatMessage.fromSocketMessage
             ((event_name.splitOn "/").headD "") data
             (match lookupA cur ((event_name.splitOn "/").headD "") with
              | some e => e.channel_id
              | none => ""))))
         else
           (st, some (CallbackCall.chatCb (ChatMessage.fromSocketMessage
             ((event_name.splitOn "/").headD "") data
             (match lookupA cur ((event_name.splitOn "/").headD "") with
              | some e => e.channel_id
              | none => ""))))
       else if data.typeField == some "end" then
         ({ st with active_subscriptions := (st.active_subscriptions.filter (fun w => w ≠ (event_name.splitOn "/").headD "")) }, none)
       else (st, none)) := by
  unfold handleChatEvent
  rw [hcur]

/-- C10 counterexample: a decoded chat event with a non-empty author name
and non-blank text invokes NO callback when no stream snapshot exists yet
(`current_streams is None`, i.e. before the first successful poll): the
handler drops it, where the claim requires exactly one callback. -/
theorem chat_drop_without_snapshot_counterexample :
    (mkPayload (some "Alice") (some "hi") (some false)).name.getD "" ≠ "" ∧
    pyStrip ((mkPayload (some "Alice") (some "hi") (some false)).message.getD "") ≠ "" ∧
    (handleChatEvent ⟨none, [], true, true⟩ "vidA/en"
      (mkPayload (some "Alice") (some "hi") (some false))).2 = none := by
  refine ⟨?_, ?_, rfl⟩
  · decide
  · decide

/-- C10 (amended): PROVIDED a stream snapshot exists (the handler drops
every event before the first successful poll), a decoded chat event whose
payload carries a non-empty author name is routed as the claim says: if the
message text strips to empty neither callback is invoked (and the state is
unchanged), otherwise exactly one callback is invoked — the vtuber
(broadcaster) callback when `is_vtuber` is set, the general chat callback
otherwise. -/
theorem chat_routing_amended (st : EngineState) (cur : Snapshot)
    (event_name : String) (data : ChatPayload)
    (hcur : st.current_streams = some cur)
    (hname : data.name.getD "" ≠ "") :
    (pyStrip (data.message.getD "") = "" →
      handleChatEvent st event_name data = (st, none)) ∧
    (pyStrip (data.message.getD "") ≠ "" → data.is_vtuber.getD false = true →
      handleChatEvent st event_name data = (st,
        some (CallbackCall.vtuberCb (ChatMessage.fromSocketMessage
          ((event_name.splitOn "/").headD "") data
          (match lookupA cur ((event_name.splitOn "/").headD "") with
           | some e => e.channel_id
           | none => ""))))) ∧
    (pyStrip (data.message.getD "") ≠ "" → data.is_vtuber.getD false = false →
      handleChatEvent st event_name data = (st,
        some (CallbackCall.chatCb (ChatMessage.fromSocketMessage
          ((event_name.splitOn "/").headD "") data
          (match lookupA cur ((event_name.splitOn "/").headD "") with
           | some e => e.channel_id
           | none => ""))))) := by
  have hb : (data.name.getD "" != "") = true := bne_iff_ne.mpr hname
  have hmsg : (ChatMessage.fromSocketMessage
      ((event_name.splitOn "/").headD "") data
      (match lookupA cur ((event_name.splitOn "/").headD "") with
       | some e => e.channel_id
       | none => "")).message = data.message.getD "" := rfl
  have hvt : (ChatMessage.fromSocketMessage
      ((event_name.splitOn "/").headD "") data
      (match lookupA cur ((event_name.splitOn "/").headD "") with
       | some e => e.channel_id
       | none => "")).is_vtuber = data.is_vtuber.getD false := rfl
  refine ⟨?_, ?_, ?_⟩
  · intro hstrip
    rw [handleChatEvent_some st cur event_name data hcur]
    rw [if_pos hb]
    rw [if_pos (by rw [hmsg]; exact beq_iff_eq.mpr hstrip)]
  · intro hstrip hv
    rw [handleChatEvent_some st cur event_name data hcur]
    rw [if_pos hb]
    rw [if_neg (by rw [hmsg]; intro hc; exact hstrip (beq_iff_eq.mp hc))]
    rw [if_pos (by rw [hvt]; exact hv)]
  · intro hstrip hv
    rw [handleChatEvent_some st cur event_name data hcur]
    rw [if_pos hb]
    rw [if_neg (by rw [hmsg]; intro hc; exact hstrip (beq_iff_eq.mp hc))]
    rw [if_neg (by rw [hvt, hv]; exact Bool.false_ne_true)]

/-- C10 witness: the amended routing applied to a concrete broadcaster
message with a snapshot present. -/
theorem chat_routing_amended_witness :
    handleChatEvent ⟨some [("vidA", mkStream "vidA" "live" false none)], [], true, true⟩
      "vidA/en" (mkPayload (some "Alice") (some "hi") (some true)) =
      (⟨some [("vidA", mkStream "vidA" "live" false none)], [], true, true⟩,
       some (CallbackCall.vtuberCb (ChatMessage.fromSocketMessage
         (("vidA/en".splitOn "/").headD "")
         (mkPayload (some "Alice") (some "hi") (some true))
         (match lookupA [("vidA", mkStream "vidA" "live" false none)]
             (("vidA/en".splitOn "/").headD "") with
          | some e => e.channel_id
          | none => "")))) :=
  (chat_routing_amended
    ⟨some [("vidA", mkStream "vidA" "live" false none)], [], true, true⟩
    [("vidA", mkStream "vidA" "live" false none)] "vidA/en"
    (mkPayload (some "Alice") (some "hi") (some true))
    rfl (by decide)).2.1 (by decide) (by decide)

/-- C7 (confirmed): if the subscription set holds exactly the three distinct
video ids a, b, c when the connection is re-established, the
post-handshake resubscription pass sends exactly one subscribe frame for
each of them (any further frames are for other ids found eligible in the
snapshot but absent from the set). -/
theorem resubscribe_three_subscriptions (a b c : String) (st : EngineState)
    (hab : a ≠ b) (hac : a ≠ c) (hbc : b ≠ c)
    (hsubs : st.active_subscriptions = [a, b, c])
    (hws : st.ws_connected = true) :
    (subFramesOf (resubscribeToStreams st).2).count a = 1 ∧
    (subFramesOf (resubscribeToStreams st).2).count b = 1 ∧
    (subFramesOf (resubscribeToStreams st).2).count c = 1 := by
  have hca : ([a, b, c] : List String).count a = 1 := by
    rw [show ([a, b, c] : List String) = a :: [b, c] from rfl,
      List.count_cons_self, List.count_cons_of_ne hab,
      List.count_cons_of_ne hac, List.count_nil]
  have hcb : ([a, b, c] : List String).count b = 1 := by
    rw [show ([a, b, c] : List String) = a :: [b, c] from rfl,
      List.count_cons_of_ne (fun h => hab h.symm),
      List.count_cons_self, List.count_cons_of_ne hbc, List.count_nil]
  have hcc : ([a, b, c] : List String).count c = 1 := by
    rw [show ([a, b, c] : List String) = a :: [b, c] from rfl,
      List.count_cons_of_ne (fun h => hac h.symm),
      List.count_cons_of_ne (fun h => hbc h.symm),
      List.count_cons_self, List.count_nil]
  have hloop1 : resubscribeLoop1 st st.active_subscriptions =
      (st, [Action.subFrame a, Action.subFrame b, Action.subFrame c]) := by
    rw [hsubs]
    exact resubscribeLoop1_already [a, b, c] st hws
      (fun v hv => by rw [hsubs]; exact hv)
  have hsf1 : subFramesOf [Action.subFrame a, Action.subFrame b,
      Action.subFrame c] = [a, b, c] := rfl
  unfold resubscribeToStreams
  rw [hloop1]
  dsimp only
  rcases hcs : st.current_streams with _ | cur
  · rw [hsf1]
    exact ⟨hca, hcb, hcc⟩
  · show (subFramesOf ([Action.subFrame a, Action.subFrame b, Action.subFrame c] ++
        (resubscribeLoop2 st cur).2)).count a = 1 ∧
      (subFramesOf ([Action.subFrame a, Action.subFrame b, Action.subFrame c] ++
        (resubscribeLoop2 st cur).2)).count b = 1 ∧
      (subFramesOf ([Action.subFrame a, Action.subFrame b, Action.subFrame c] ++
        (resubscribeLoop2 st cur).2)).count c = 1
    rw [subFramesOf_append, hsf1]
    have hzero : ∀ x : String, x ∈ st.active_subscriptions →
        (subFramesOf (resubscribeLoop2 st cur).2).count x = 0 := by
      intro x hx
      exact List.count_eq_zero.mpr
        (resubscribeLoop2_frames_disjoint cur st x hws hx)
    have hma : a ∈ st.active_subscriptions := by
      rw [hsubs]
      exact List.mem_cons_self a [b, c]
    have hmb : b ∈ st.active_subscriptions := by
      rw [hsubs]
      exact List.mem_cons_of_mem a (List.mem_cons_self b [c])
    have hmc : c ∈ st.active_subscriptions := by
      rw [hsubs]
      exact List.mem_cons_of_mem a (List.mem_cons_of_mem b (List.mem_cons_self c []))
    refine ⟨?_, ?_, ?_⟩
    · rw [List.count_append, hca, hzero a hma]
    · rw [List.count_append, hcb, hzero b hmb]
    · rw [List.count_append, hcc, hzero c hmc]

/-- C7 witness: the reconnection property applied at a concrete state with
three subscriptions. -/
theorem resubscribe_three_subscriptions_witness :
    (subFramesOf (resubscribeToStreams ⟨none, ["x", "y", "z"], true, true⟩).2).count "x" = 1 ∧
    (subFramesOf (resubscribeToStreams ⟨none, ["x", "y", "z"], true, true⟩).2).count "y" = 1 ∧
    (subFramesOf (resubscribeToStreams ⟨none, ["x", "y", "z"], true, true⟩).2).count "z" = 1 :=
  resubscribe_three_subscriptions "x" "y" "z" ⟨none, ["x", "y", "z"], true, true⟩
    (by decide) (by decide) (by decide) rfl rfl

/-- C1 counterexample: the subscription-set invariant holds before a poll
cycle in which the snapshot reports the subscribed stream A with status
"ended" (still present in the snapshot), and fails afterwards: the diff loop
neither subscribes (not eligible) nor unsubscribes (not members-only), and
the ended-stream loop skips A because it is still in the new snapshot, so A
stays subscribed while its last-known status is no longer live/upcoming. -/
theorem subscription_invariant_counterexample :
    subsInvariant ⟨some [("A", mkStream "A" "live" false none)], ["A"], true, true⟩ ∧
    ¬ subsInvariant (updateStreams ["UCch1"] 0
      ⟨some [("A", mkStream "A" "live" false none)], ["A"], true, true⟩
      (some [mkStream "A" "ended" false none])).1 := by
  constructor
  · intro v
    constructor
    · intro hv
      have hv2 : v = "A" := List.mem_singleton.mp hv
      subst hv2
      exact ⟨mkStream "A" "live" false none, by decide, by decide⟩
    · rintro ⟨e, he, _⟩
      by_cases hv : v = "A"
      · subst hv
        decide
      · have hnone : lookupA [("A", mkStream "A" "live" false none)] v = none := by
          rw [lookupA_eq_none_iff]
          simp [hv]
        have hcontra : (none : Option StreamEvent) = some e := by
          rw [← hnone]
          exact he
        exact Option.noConfusion hcontra
  · intro hcontra
    have h1 := (hcontra "A").mp (by decide)
    rcases h1 with ⟨e, he, hel⟩
    have hX : snapLookup (updateStreams ["UCch1"] 0
        ⟨some [("A", mkStream "A" "live" false none)], ["A"], true, true⟩
        (some [mkStream "A" "ended" false none])).1.current_streams "A" =
        some (mkStream "A" "ended" false none) := by decide
    obtain rfl := Option.some.inj (hX.symm.trans he)
    exact absurd hel (by decide)

/-- C1 (amended): the subscription-set invariant (subscribed iff last-known
status is live/upcoming and not members-only) is preserved by the poll-cycle
diff PROVIDED the websocket is connected, every snapshot entry reports
status live or upcoming, and no entry changes its members-only flag without
also changing status (the counterexample shows it fails when an entry
reports "ended" while still subscribed; a members-only flip with unchanged
status breaks it the same way); it is preserved by removed-channel cleanup
when connected and running; and after a reconnect the resubscription pass
restores it from any state whose subscriptions are all still eligible. -/
theorem subscription_invariant_amended :
    (∀ (tracked : List String) (now : Int) (st : EngineState)
      (data : List StreamEvent),
      tracked ≠ [] → st.ws_connected = true → subsInvariant st →
      (∀ e ∈ data, e.status = "live" ∨ e.status = "upcoming") →
      (∀ e ∈ data, ∀ old : StreamEvent,
        snapLookup st.current_streams e.video_id = some old →
        old.status = e.status → old.members_only = e.members_only) →
      subsInvariant (updateStreams tracked now st (some data)).1) ∧
    (∀ (removed : List String) (st : EngineState),
      st.ws_connected = true → st.running = true → subsInvariant st →
      subsInvariant (cleanupRemovedChannels removed st).1) ∧
    (∀ st : EngineState, st.ws_connected = true → snapKeysNodup st →
      (∀ v ∈ st.active_subscriptions,
        ∃ e, snapLookup st.current_streams v = some e ∧ eligible e = true) →
      subsInvariant (resubscribeToStreams st).1) :=
  ⟨fun tracked now st data htr hws hinv hstatus hmo =>
     updateStreams_preserves_invariant tracked now st data htr hws hinv hstatus hmo,
   fun removed st hws hrun hinv =>
     cleanup_preserves_invariant removed st hws hrun hinv,
   fun st hws hnd hsub =>
     resubscribe_restores_invariant st hws hnd hsub⟩

/-- C1 witness: the amended invariant preservation applied at concrete
states (a first poll establishing one live subscription, a cleanup, and a
reconnect resubscription). -/
theorem subscription_invariant_amended_witness :
    subsInvariant (updateStreams ["UCch1"] 0 ⟨none, [], true, true⟩
      (some [mkStream "A" "live" false none])).1 ∧
    subsInvariant (cleanupRemovedChannels ["UCother"]
      ⟨some [("A", mkStream "A" "live" false none)], ["A"], true, true⟩).1 ∧
    subsInvariant (resubscribeToStreams
      ⟨some [("A", mkStream "A" "live" false none)], ["A"], true, true⟩).1 := by
  have hinv0 : subsInvariant (⟨none, [], true, true⟩ : EngineState) := by
    intro v
    constructor
    · intro hv
      exact absurd hv (List.not_mem_nil v)
    · rintro ⟨e, he, _⟩
      exact Option.noConfusion he
  have hinvA : subsInvariant
      (⟨some [("A", mkStream "A" "live" false none)], ["A"], true, true⟩ : EngineState) := by
    intro v
    constructor
    · intro hv
      have hv2 : v = "A" := List.mem_singleton.mp hv
      subst hv2
      exact ⟨mkStream "A" "live" false none, by decide, by decide⟩
    · rintro ⟨e, he, _⟩
      by_cases hv : v = "A"
      · subst hv
        decide
      · have hnone : lookupA [("A", mkStream "A" "live" false none)] v = none := by
          rw [lookupA_eq_none_iff]
          simp [hv]
        have hc2 : (none : Option StreamEvent) = some e := by
          rw [← hnone]
          exact he
        exact Option.noConfusion hc2
  refine ⟨?_, ?_, ?_⟩
  · refine subscription_invariant_amended.1 ["UCch1"] 0 ⟨none, [], true, true⟩
      [mkStream "A" "live" false none] (by intro h; exact List.noConfusion h)
      rfl hinv0 ?_ ?_
    · intro e he
      have he2 : e = mkStream "A" "live" false none := List.mem_singleton.mp he
      subst he2
      left
      rfl
    · intro e he old hold
      exact absurd hold (by intro h; exact Option.noConfusion h)
  · exact subscription_invariant_amended.2.1 ["UCother"]
      ⟨some [("A", mkStream "A" "live" false none)], ["A"], true, true⟩ rfl rfl hinvA
  · refine subscription_invariant_amended.2.2
      ⟨some [("A", mkStream "A" "live" false none)], ["A"], true, true⟩ rfl ?_ ?_
    · show (([("A", mkStream "A" "live" false none)] : Snapshot).map Prod.fst).Nodup
      decide
    · intro v hv
      have hv2 : v = "A" := List.mem_singleton.mp hv
      subst hv2
      exact ⟨mkStream "A" "live" false none, by decide, by decide⟩

end OtomoPy
